import Mathlib

/-!
Verification model of the zylos-feishu message pipeline
(src/lib/config.js together with the service entry point it is bundled with).

The JavaScript source is shallowly embedded as pure Lean functions.
Conventions used throughout:

* A JavaScript value that may be `undefined`/`null` is an `Option`.
* JS truthiness on strings: `undefined`, `null` and `""` are falsy.
* Mutable module state (dedup map, chat histories, typing indicators,
  user-name cache, the in-memory config and the durable config file) is
  threaded through a `Sys` record; every externally visible action is
  appended to `Sys.trace`.
* Remote calls (Feishu API, subprocess execution, file writes) are
  abstracted as oracle fields of an `Env` record; a call that can throw is
  represented by a result constructor for the thrown case.
* `Except Unit` models a JS exception propagating out of a function;
  state mutations made before the throw survive, so functions return
  `Sys × Except Unit α`.
-/

namespace Feishu

/-- The single-quote character, kept out of string literals. -/
def sq : String := String.singleton (Char.ofNat 39)

/-- JS `a || b` for a possibly-undefined string `a` (empty string is falsy). -/
def jsStrOr (o : Option String) (d : String) : String :=
  match o with
  | some s => if s = "" then d else s
  | none => d

/-- JS `x || null` on a possibly-undefined string. -/
def jsStrOpt (o : Option String) : Option String :=
  o.bind (fun s => if s = "" then none else some s)

/-- JS string truthiness of a possibly-undefined string. -/
def jsTruthyS (o : Option String) : Bool :=
  match o with
  | some s => s ≠ ""
  | none => false

/-- JS template interpolation / `String(x)` of a possibly-undefined value. -/
def jsTpl (o : Option String) : String := o.getD "undefined"

/-- JS `String(x || '')`: coalesce a possibly-undefined string to `""`. -/
def jsStrEmpty (o : Option String) : String := o.getD ""

/-- JS `a || b` on a possibly-undefined number (0 is falsy). -/
def jsNumOr (o : Option Nat) (d : Nat) : Nat :=
  match o with
  | some n => if n = 0 then d else n
  | none => d

/-- Association-list lookup keyed by strings (JS `Map.get` / object index). -/
def mget {α : Type} : List (String × α) → String → Option α
  | [], _ => none
  | (k, v) :: rest, key => if k = key then some v else mget rest key

/-- Association-list update (JS `Map.set` / object property write). -/
def mset {α : Type} : List (String × α) → String → α → List (String × α)
  | [], key, v => [(key, v)]
  | (k, w) :: rest, key, v =>
    if k = key then (key, v) :: rest else (k, w) :: mset rest key v

/-- Association-list removal (JS `Map.delete`). -/
def mdel {α : Type} : List (String × α) → String → List (String × α)
  | [], _ => []
  | (k, w) :: rest, key =>
    if k = key then rest else (k, w) :: mdel rest key

/-- JS `Array.prototype.findIndex`, as an optional index. -/
def jsFindIndex {α : Type} (p : α → Bool) : List α → Option Nat
  | [] => none
  | x :: xs => if p x then some 0 else (jsFindIndex p xs).map (· + 1)

/-- JS `arr.slice(-count)` for `count ≤ arr.length` (`slice(-0)` is the
whole array). -/
def jsSliceNeg {α : Type} (l : List α) (count : Nat) : List α :=
  if count = 0 then l else l.drop (l.length - count)

/-- Charwise lowering, modelling JS `String.prototype.toLowerCase` on the
identifier strings used by the policy checks. -/
def lowerStr (s : String) : String := String.mk (s.toList.map Char.toLower)

/-- Charwise sanitisation `replace(/[^a-zA-Z0-9_-]/g, '_')` used for log
file names. -/
def sanitizeChar (c : Char) : Char :=
  if c.isAlpha ∨ c.isDigit ∨ c = Char.ofNat 95 ∨ c = Char.ofNat 45 then c
  else Char.ofNat 95

/-- Sanitise a string for use as a log-file name. -/
def sanitize (s : String) : String := String.mk (s.toList.map sanitizeChar)

/-- Charwise filter `replace(/[^a-zA-Z0-9_-]/g, '')` used for media file
names. -/
def keepIdChars (s : String) : String :=
  String.mk (s.toList.filter
    (fun c => c.isAlpha ∨ c.isDigit ∨ c = Char.ofNat 95 ∨ c = Char.ofNat 45))

/-- JS `str.slice(-8)` on the character list of a string. -/
def lastChars (n : Nat) (s : String) : String :=
  String.mk (s.toList.drop (s.toList.length - n))

/-- JS whitespace trim (both ends), over the character list. -/
def jsTrim (s : String) : String :=
  String.mk (((s.toList.dropWhile Char.isWhitespace).reverse.dropWhile
    Char.isWhitespace).reverse)

/-- First-occurrence string replacement, modelling JS
`String.prototype.replace` with a string pattern. -/
def replaceFirstAux (pat repl : List Char) : List Char → Option (List Char)
  | [] => none
  | c :: rest =>
    if pat.isPrefixOf (c :: rest) then
      some (repl ++ (c :: rest).drop pat.length)
    else
      match replaceFirstAux pat repl rest with
      | some r => some (c :: r)
      | none => none

/-- JS `s.replace(pat, repl)` (first occurrence only). -/
def jsReplaceFirst (s pat repl : String) : String :=
  match replaceFirstAux pat.toList repl.toList s.toList with
  | some r => String.mk r
  | none => s

/-- Helper state machine for the global `key\s*` regex removal in
`resolveMentions` (strip a mention key and any following whitespace at
every occurrence). `skip` counts pattern characters still to drop, `ws`
marks that trailing whitespace is being consumed. -/
def stripKeyWsAux (pat : List Char) : List Char → Nat → Bool → List Char
  | [], _, _ => []
  | _ :: rest, skip + 1, ws => stripKeyWsAux pat rest skip ws
  | c :: rest, 0, true =>
    if c.isWhitespace then stripKeyWsAux pat rest 0 true
    else if pat.isPrefixOf (c :: rest) then
      stripKeyWsAux pat rest (pat.length - 1) true
    else c :: stripKeyWsAux pat rest 0 false
  | c :: rest, 0, false =>
    if pat.isPrefixOf (c :: rest) then
      stripKeyWsAux pat rest (pat.length - 1) true
    else c :: stripKeyWsAux pat rest 0 false

/-- JS `s.replace(new RegExp(escaped(key) + String.raw, 'g'), '')` where the
pattern is the key followed by optional whitespace. -/
def stripKeyWs (s key : String) : String :=
  String.mk (stripKeyWsAux key.toList s.toList 0 false)

end Feishu

namespace Feishu

/-! ## Data model (config.json shape and inbound event shape) -/

/-- `config.owner` — owner binding record. -/
structure Owner where
  bound : Bool := false
  user_id : Option String := none
  open_id : Option String := none
  name : Option String := none
deriving DecidableEq

/-- One entry of the `config.groups` map. -/
structure GroupConfig where
  name : Option String := none
  mode : Option String := none
  requireMention : Option Bool := none
  allowFrom : Option (List String) := none
  historyLimit : Option Nat := none
deriving DecidableEq

/-- Legacy `allowed_groups` / `smart_groups` array element. -/
structure LegacyGroup where
  chat_id : Option String := none
  name : Option String := none
deriving DecidableEq

/-- `config.message` sub-object. -/
structure MessageCfg where
  context_messages : Option Nat := none
deriving DecidableEq

/-- The configuration object (fields the pipeline reads). -/
structure Config where
  owner : Option Owner := none
  dmPolicy : Option String := none
  dmAllowFrom : Option (List String) := none
  groupPolicy : Option String := none
  groups : Option (List (String × GroupConfig)) := none
  allowed_groups : Option (List LegacyGroup) := none
  smart_groups : Option (List LegacyGroup) := none
  message : Option MessageCfg := none
  app_id : Option String := none
  bot_open_id : Option String := none
deriving DecidableEq

/-- A mention record `{ key, name, id: { open_id, user_id, app_id } }`. -/
structure Mention where
  key : Option String := none
  name : Option String := none
  open_id : Option String := none
  user_id : Option String := none
  app_id : Option String := none
deriving DecidableEq

/-- One element of a post (rich text) paragraph, by tag. -/
inductive PostEl where
  | textEl (text : Option String)
  | atEl (user_name : Option String) (user_id : Option String)
  | aEl (text : Option String) (href : Option String)
  | imgEl (image_key : Option String)
  | mediaEl (file_key : Option String)
  | emotionEl (emoji_type : Option String)
  | otherEl (text : Option String)
deriving DecidableEq

/-- Decoded `message.content` JSON object; `none` at the `Message` level
models a JSON parse failure (the code then uses `{}`). -/
structure MsgContentObj where
  text : Option String := none
  title : Option String := none
  content : Option (List (List PostEl)) := none
  image_key : Option String := none
  file_key : Option String := none
  file_name : Option String := none
deriving DecidableEq

/-- The inbound `message` object of an `im.message.receive_v1` event. -/
structure Message where
  chat_id : Option String := none
  message_id : Option String := none
  chat_type : Option String := none
  root_id : Option String := none
  parent_id : Option String := none
  thread_id : Option String := none
  upper_message_id : Option String := none
  message_type : Option String := none
  content : Option MsgContentObj := none
  mentions : Option (List Mention) := none
deriving DecidableEq

/-- `sender.sender_id` of the event. -/
structure SenderId where
  open_id : Option String := none
  user_id : Option String := none
  app_id : Option String := none
deriving DecidableEq

/-- The `sender` object of the event. -/
structure Sender where
  sender_id : Option SenderId := none
deriving DecidableEq

/-- The `{ message, sender, _timestamp }` record handed to `handleMessage`. -/
structure EventData where
  message : Message
  sender : Sender
  timestamp : Option String := none
deriving DecidableEq

/-- An in-memory chat history entry (the `logEntry` shape). -/
structure HistoryEntry where
  timestamp : String := ""
  message_id : Option String := none
  user_id : Option String := none
  open_id : Option String := none
  user_name : String := ""
  text : String := ""
deriving DecidableEq

/-! ## Policy helpers (pure reads of the configuration) -/

/-- `resolveGroupConfig(chatId)`: look up the per-group config map. -/
def resolveGroupConfig (cfg : Config) (chatId : String) : Option GroupConfig :=
  mget (cfg.groups.getD []) chatId

/-- `isGroupAllowed(chatId)`: group policy plus legacy-array fallback. -/
def isGroupAllowed (cfg : Config) (chatId : Option String) : Bool :=
  let normalizedChatId := chatId.getD ""
  let groupPolicy := jsStrOr cfg.groupPolicy "allowlist"
  if groupPolicy = "disabled" then false
  else if groupPolicy = "open" then true
  else
    match resolveGroupConfig cfg normalizedChatId with
    | some _ => true
    | none =>
      let legacyAllowed := (cfg.allowed_groups.getD []).any
        (fun g => jsTpl g.chat_id = normalizedChatId)
      let legacySmart := (cfg.smart_groups.getD []).any
        (fun g => jsTpl g.chat_id = normalizedChatId)
      legacyAllowed || legacySmart

/-- `isSmartGroup(chatId)`. -/
def isSmartGroup (cfg : Config) (chatId : Option String) : Bool :=
  let normalizedChatId := chatId.getD ""
  if jsStrOr cfg.groupPolicy "allowlist" = "disabled" then false
  else
    match resolveGroupConfig cfg normalizedChatId with
    | some groupConfig =>
      groupConfig.mode = some "smart" || groupConfig.requireMention = some false
    | none =>
      (cfg.smart_groups.getD []).any (fun g => jsTpl g.chat_id = normalizedChatId)

/-- `isSenderAllowedInGroup(chatId, senderUserId, senderOpenId)`. -/
def isSenderAllowedInGroup (cfg : Config) (chatId : Option String)
    (senderUserId senderOpenId : Option String) : Bool :=
  match resolveGroupConfig cfg (jsTpl chatId) with
  | none => true
  | some groupConfig =>
    match groupConfig.allowFrom with
    | none => true
    | some allowFrom =>
      if allowFrom.isEmpty then true
      else
        let allowed := allowFrom.map lowerStr
        let normalizedSenderUserId := lowerStr (senderUserId.getD "")
        let normalizedSenderOpenId := lowerStr (senderOpenId.getD "")
        if allowed.contains "*" then true
        else if normalizedSenderUserId ≠ "" && allowed.contains normalizedSenderUserId then true
        else if normalizedSenderOpenId ≠ "" && allowed.contains normalizedSenderOpenId then true
        else false

/-- `getGroupHistoryLimit(chatId)`; `DEFAULT_HISTORY_LIMIT` is 5. -/
def DEFAULT_HISTORY_LIMIT : Nat := 5

/-- History limit of a chat: per-group `historyLimit`, else
`config.message.context_messages`, else the default (0 is falsy in JS). -/
def getGroupHistoryLimit (cfg : Config) (chatId : Option String) : Nat :=
  let groupConfig := resolveGroupConfig cfg (jsTpl chatId)
  jsNumOr (groupConfig.bind (·.historyLimit))
    (jsNumOr (cfg.message.bind (·.context_messages)) DEFAULT_HISTORY_LIMIT)

/-- `getGroupName(chatId)`. -/
def getGroupName (cfg : Config) (chatId : Option String) : String :=
  match (resolveGroupConfig cfg (jsTpl chatId)).bind (fun g => jsStrOpt g.name) with
  | some n => n
  | none =>
    match ((cfg.allowed_groups.getD []).find?
        (fun g => jsTpl g.chat_id = jsTpl chatId)).bind (fun g => jsStrOpt g.name) with
    | some n => n
    | none =>
      match ((cfg.smart_groups.getD []).find?
          (fun g => jsTpl g.chat_id = jsTpl chatId)).bind (fun g => jsStrOpt g.name) with
      | some n => n
      | none => jsStrOr chatId "unknown"

/-- `isBotMentioned(mentions, botId)`. -/
def isBotMentioned (mentions : Option (List Mention)) (botId : Option String) : Bool :=
  match mentions with
  | none => false
  | some ms =>
    let normalizedBotId := botId.getD ""
    ms.any (fun m =>
      let mentionId := jsStrOr m.open_id (jsStrOr m.user_id (jsStrOr m.app_id ""))
      (normalizedBotId ≠ "" && mentionId = normalizedBotId) || m.key = some "@_all")

/-- `isOwner(userId, openId)`: either identifier matches the bound owner. -/
def isOwner (cfg : Config) (userId openId : Option String) : Bool :=
  match cfg.owner with
  | none => false
  | some o =>
    if !o.bound then false
    else
      (o.user_id.isSome && userId.isSome && o.user_id = userId)
        || (o.open_id.isSome && openId.isSome && o.open_id = openId)

/-- `isDmAllowed(userId, openId)`: owner bypass, then `dmPolicy`. -/
def isDmAllowed (cfg : Config) (userId openId : Option String) : Bool :=
  if isOwner cfg userId openId then true
  else
    let policy := jsStrOr cfg.dmPolicy "owner"
    if policy = "open" then true
    else if policy = "owner" then false
    else
      let allowFrom := cfg.dmAllowFrom.getD []
      let normalizedUserId := userId.getD ""
      let normalizedOpenId := openId.getD ""
      (normalizedUserId ≠ "" && allowFrom.contains normalizedUserId)
        || (normalizedOpenId ≠ "" && allowFrom.contains normalizedOpenId)

end Feishu

namespace Feishu

/-! ## Environment oracles and threaded mutable state -/

/-- Result of `getUserInfo(userId)` (contact API), including the thrown
case; a thrown error may carry a recognised permission error. -/
structure PermErr where
  code : Nat
  message : String
  grantUrl : Option String := none
deriving DecidableEq

/-- Outcome of a `getUserInfo` call. -/
inductive GetUserRes where
  | success (name : Option String)
  | failure (code : Option Nat) (message : Option String)
  | throws (permErr : Option PermErr) (errMessage : String)
deriving DecidableEq

/-- A raw remote message returned by `listMessages`. `parsedPost` is the
decoded `JSON.parse(content).content || []` when the type is `post` and the
JSON parses; `none` models a parse failure (raw content kept). -/
structure RemoteMsg where
  id : Option String := none
  sender : Option String := none
  createTime : Nat := 0
  type : Option String := none
  content : String := ""
  parsedPost : Option (List (List PostEl)) := none
  mentions : Option (List Mention) := none
deriving DecidableEq

/-- Outcome of a `listMessages` call. -/
inductive ListMessagesRes where
  | success (messages : List RemoteMsg)
  | failure
  | throws
deriving DecidableEq

/-- Outcome of an `addReaction` call. -/
inductive AddReactionRes where
  | res (success : Bool) (reactionId : Option String)
  | throws
deriving DecidableEq

/-- Outcome of a `removeReaction` call. -/
inductive RemResult where
  | res (success : Bool)
  | throws
deriving DecidableEq

/-- A chat member returned by `listChatMembers`. -/
structure Member where
  memberId : Option String := none
  name : Option String := none
deriving DecidableEq

/-- Outcome of a `listChatMembers` call. -/
inductive MembersRes where
  | res (success : Bool) (members : Option (List Member))
  | throws
deriving DecidableEq

/-- Outcome of a `sendMessage` / `replyToMessage` call. -/
inductive SendRes where
  | res (success : Bool)
  | throws
deriving DecidableEq

/-- Resolved content of a quoted message (`fetchQuotedMessage` result; the
message-get API call and its text extraction are abstracted as one oracle,
`none` covering both the API failure and the caught-exception paths). -/
structure QuotedContent where
  sender : String := ""
  text : String := ""
deriving DecidableEq

/-- External world: clocks, bot identity fetched at startup, and the
remote/process APIs invoked by the pipeline. -/
structure Env where
  now : Nat := 0
  nowIso : String := "1970-01-01T00-00-00-000Z"
  home : String := "HOME"
  botOpenId : String := ""
  botAppId : String := ""
  botAppName : String := ""
  persistOk : Bool := true
  saveCursorsOk : Bool := true
  getUserInfo : String → GetUserRes := fun _ => .failure none none
  listMessages : String → Nat → ListMessagesRes := fun _ _ => .failure
  listChatMembers : String → MembersRes := fun _ => .res false none
  addReaction : String → AddReactionRes := fun _ => .res false none
  removeReaction : String → Nat → RemResult := fun _ _ => .res true
  downloadImage : String → Bool := fun _ => false
  downloadFile : String → Bool := fun _ => false
  sendMessage : String → SendRes := fun _ => .res true
  replyToMessage : String → SendRes := fun _ => .res true
  fetchQuoted : String → Option QuotedContent := fun _ => none

/-- A cached user-name entry with its expiry instant. -/
structure NameEntry where
  name : String
  expireAt : Nat
deriving DecidableEq

/-- Externally visible actions, recorded newest-first. -/
inductive Effect where
  | fileLogAppend (fileName : String)
  | configWrite
  | cursorSave
  | remoteUserLookup (uid : String)
  | remoteHistoryFetch (containerId : String)
  | memberPreload (chatId : String)
  | quotedFetch (mid : String)
  | mediaDownload (key : String)
  | reactionAdd (mid : String)
  | reactionRemove (mid : String) (reactionId : String)
  | deferredRemoveScheduled (mid : String)
  | dispatchC4 (endpoint : String) (content : String)
  | sendMsg (target : String) (text : String)
  | replyMsg (target : String) (text : String)
deriving DecidableEq

/-- The process-local mutable state of the service. -/
structure Sys where
  processed : List (String × Nat) := []
  histories : List (String × List HistoryEntry) := []
  lazyLoaded : List String := []
  preloaded : List String := []
  typing : List (String × String) := []
  userCache : List (String × NameEntry) := []
  cacheDirty : Bool := false
  cursors : List (String × Option String) := []
  lastPermNotified : Nat := 0
  cfg : Config := {}
  fileCfg : Config := {}
  trace : List Effect := []
deriving DecidableEq

/-- Append an effect (newest first). -/
def emit (e : Effect) (sys : Sys) : Sys := { sys with trace := e :: sys.trace }

/-! ## Dedup ledger -/

/-- `DEDUP_TTL` — five minutes in milliseconds. -/
def DEDUP_TTL : Nat := 5 * 60 * 1000

/-- `isDuplicate(messageId)`: record-on-first-sight membership test with a
soft-cap lazy eviction of expired entries. -/
def isDuplicate (now : Nat) (messageId : Option String) (m : List (String × Nat)) :
    List (String × Nat) × Bool :=
  if !jsTruthyS messageId then (m, false)
  else
    let id := messageId.getD ""
    if (mget m id).isSome then (m, true)
    else
      let m1 := m ++ [(id, now)]
      let m2 :=
        if m1.length > 200 then m1.filter (fun p => !(now - p.2 > DEDUP_TTL))
        else m1
      (m2, false)

/-- Body of the periodic `dedupCleanupInterval` sweep. -/
def dedupSweep (now : Nat) (m : List (String × Nat)) : List (String × Nat) :=
  m.filter (fun p => !(now - p.2 > DEDUP_TTL))

/-! ## Permission errors and user-name resolution -/

/-- `PERMISSION_ERROR_COOLDOWN` — five minutes in milliseconds. -/
def PERMISSION_ERROR_COOLDOWN : Nat := 5 * 60 * 1000

/-- `SENDER_NAME_TTL` — ten minutes in milliseconds. -/
def SENDER_NAME_TTL : Nat := 10 * 60 * 1000

/-- `handlePermissionError(permErr)`: cooldown-limited owner alert. -/
def handlePermissionError (env : Env) (permErr : PermErr) (sys : Sys) : Sys :=
  if env.now - sys.lastPermNotified < PERMISSION_ERROR_COOLDOWN then sys
  else
    let sys := { sys with lastPermNotified := env.now }
    let grantUrl := jsStrOr permErr.grantUrl ""
    match sys.cfg.owner with
    | some o =>
      if o.bound ∧ jsTruthyS o.open_id then
        let alertText := s!"[Feishu SYSTEM] Permission error detected: {permErr.message}" ++
          (if grantUrl ≠ "" then "\nAdmin grant URL: " ++ grantUrl else "")
        emit (.sendMsg (o.open_id.getD "") alertText) sys
      else sys
    | none => sys

/-- The `try { getUserInfo } catch` tail of `resolveUserName`: remote
lookup, cache fill, permission-error notification, expired-cache fallback
on thrown errors. -/
def resolveUserNameRemote (env : Env) (uid : String) (cached : Option NameEntry)
    (sys : Sys) : Sys × String :=
  let sys := emit (.remoteUserLookup uid) sys
  match env.getUserInfo uid with
  | .success name =>
    if jsTruthyS name then
      let n := name.getD ""
      ({ sys with
          userCache := mset sys.userCache uid ⟨n, env.now + SENDER_NAME_TTL⟩,
          cacheDirty := true }, n)
    else (sys, uid)
  | .failure code message =>
    if code = some 99991672 then
      (handlePermissionError env
        { code := 99991672, message := jsStrOr message "" } sys, uid)
    else (sys, uid)
  | .throws permErr _ =>
    let sys :=
      match permErr with
      | some p => handlePermissionError env p sys
      | none => sys
    match cached with
    | some c => (sys, c.name)
    | none => (sys, uid)

/-- `resolveUserName(userId)`: TTL cache, bot self-identity, remote lookup
via `resolveUserNameRemote`. -/
def resolveUserName (env : Env) (userId : Option String) (sys : Sys) : Sys × String :=
  if !jsTruthyS userId then (sys, "unknown")
  else
    let uid := userId.getD ""
    if env.botOpenId ≠ "" ∧ uid = env.botOpenId then
      (sys, jsStrOr (some env.botAppName) "bot")
    else if env.botAppId ≠ "" ∧ uid = env.botAppId then
      (sys, jsStrOr (some env.botAppName) "bot")
    else
      let cached := mget sys.userCache uid
      match cached with
      | some c =>
        if c.expireAt > env.now then (sys, c.name)
        else resolveUserNameRemote env uid cached sys
      | none => resolveUserNameRemote env uid cached sys

end Feishu

namespace Feishu

/-! ## In-memory chat history -/

/-- `getHistoryKey(chatId, threadId)`: thread-isolated history key. -/
def getHistoryKey (chatId : String) (threadId : Option String) : String :=
  if jsTruthyS threadId then chatId ++ ":" ++ threadId.getD "" else chatId

/-- Base chat id of a history key (`key.split(':')[0]` when the key has a
colon). -/
def baseChatIdOf (historyKey : String) : String :=
  if historyKey.toList.contains (Char.ofNat 58) then
    String.mk (historyKey.toList.takeWhile (fun c => c ≠ Char.ofNat 58))
  else historyKey

/-- `recordHistoryEntry(historyKey, entry)`: ensure the bucket, dedup by
`message_id`, append, cap at twice the limit (trimming to the limit). -/
def recordHistoryEntry (cfg : Config) (historyKey : String) (entry : HistoryEntry)
    (hs : List (String × List HistoryEntry)) : List (String × List HistoryEntry) :=
  let hs1 := if (mget hs historyKey).isSome then hs else mset hs historyKey []
  let history := (mget hs1 historyKey).getD []
  if jsTruthyS entry.message_id ∧
      history.any (fun m => m.message_id = entry.message_id) then hs1
  else
    let h2 := history ++ [entry]
    let limit := getGroupHistoryLimit cfg (some (baseChatIdOf historyKey))
    let h3 := if h2.length > limit * 2 then jsSliceNeg h2 limit else h2
    mset hs1 historyKey h3

/-- `getInMemoryContext(historyKey, currentMessageId)`: most recent entries
up to the limit, excluding the current message. -/
def getInMemoryContext (cfg : Config) (historyKey : String)
    (currentMessageId : Option String)
    (hs : List (String × List HistoryEntry)) : List HistoryEntry :=
  match mget hs historyKey with
  | none => []
  | some history =>
    if history.isEmpty then []
    else
      let limit := getGroupHistoryLimit cfg (some (baseChatIdOf historyKey))
      let filtered := history.filter (fun m => m.message_id ≠ currentMessageId)
      let count := min limit filtered.length
      jsSliceNeg filtered count

/-- `pinRootMessage(context, rootId, historyKey)`: move the root entry to
the front, recovering it from the full buffer if the window trimmed it. -/
def pinRootMessage (context : Option (List HistoryEntry)) (rootId : Option String)
    (historyKey : String)
    (hs : List (String × List HistoryEntry)) : Option (List HistoryEntry) :=
  match rootId, context with
  | some r, some ctx =>
    if r = "" then some ctx
    else
      match jsFindIndex (fun m => m.message_id = some r) ctx with
      | some 0 => some ctx
      | some (i + 1) =>
        match ctx.get? (i + 1) with
        | some root => some (root :: ctx.eraseIdx (i + 1))
        | none => some ctx
      | none =>
        match mget hs historyKey with
        | some fullHistory =>
          match fullHistory.find? (fun m => m.message_id = some r) with
          | some rootEntry => some (rootEntry :: ctx)
          | none => some ctx
        | none => some ctx
  | _, ctx => ctx

/-! ## Content extraction and formatting -/

/-- Text of one post element (with collected image keys), by tag. -/
def postElParts (messageId : Option String) (el : PostEl) : String × List String :=
  match el with
  | .textEl t => (t.getD "", [])
  | .atEl user_name user_id =>
    ("@" ++ jsStrOr user_name (jsStrOr user_id "unknown"), [])
  | .aEl t href =>
    if jsTruthyS href then
      ((t.getD "") ++ "(" ++ href.getD "" ++ ")", [])
    else (t.getD "", [])
  | .imgEl image_key =>
    if jsTruthyS image_key then
      let k := image_key.getD ""
      (s!"[image, image_key: {k}, msg_id: {jsTpl messageId}]", [k])
    else ("", [])
  | .mediaEl file_key =>
    let fk := jsStrOr file_key "unknown"
    let mi := jsTpl messageId
    (s!"[media, file_key: {fk}, msg_id: {mi}]", [])
  | .emotionEl emoji_type =>
    let et := jsStrEmpty emoji_type
    (if jsTruthyS emoji_type then s!"[{et}]" else "", [])
  | .otherEl t => (if jsTruthyS t then t.getD "" else "", [])

/-- `extractPostText(paragraphs, messageId)`: flatten rich-text paragraphs
into lines of text plus collected image keys. -/
def extractPostText (paragraphs : List (List PostEl)) (messageId : Option String) :
    String × List String :=
  let processed := paragraphs.map (fun paragraph =>
    let parts := paragraph.map (postElParts messageId)
    (String.join (parts.map (·.1)), (parts.map (·.2)).flatten))
  (String.intercalate "\n" (processed.map (·.1)), (processed.map (·.2)).flatten)

/-- The record returned by `extractMessageContent`. -/
structure Extracted where
  text : String := ""
  imageKeys : List String := []
  fileKey : Option String := none
  fileName : Option String := none
deriving DecidableEq

/-- `extractMessageContent(message)`: dispatch on `message_type`. -/
def extractMessageContent (m : Message) : Extracted :=
  let content := m.content.getD {}
  match m.message_type with
  | some "text" => { text := jsStrOr content.text "" }
  | some "post" =>
    (match content.content with
     | some paragraphs =>
       let (text, imageKeys) := extractPostText paragraphs m.message_id
       let ttl := jsStrEmpty content.title
       let fullText :=
         if jsTruthyS content.title then s!"[{ttl}] {text}"
         else text
       { text := fullText, imageKeys := imageKeys }
     | none => { text := "" })
  | some "image" =>
    { imageKeys := if jsTruthyS content.image_key then [content.image_key.getD ""] else [] }
  | some "file" =>
    { fileKey := content.file_key, fileName := some (jsStrOr content.file_name "unknown") }
  | t => { text := s!"[{jsTpl t} message]" }

/-- `resolveMentions(text, mentions, { stripBot, botOpenId })`: replace
`@_user_N` placeholders with real names; with `stripBot`, delete the bot
mention key and trailing whitespace instead. -/
def resolveMentions (text : String) (mentions : Option (List Mention))
    (stripBot : Bool := false) (botId : Option String := none) : String :=
  if text = "" ∨ mentions.isNone ∨ (mentions.getD []).isEmpty then text
  else
    let resolved := (mentions.getD []).foldl (fun resolved m =>
      if !jsTruthyS m.key then resolved
      else
        let isBotMention := jsTruthyS botId ∧
          (m.open_id = botId ∨ m.app_id = botId)
        if stripBot ∧ isBotMention then
          stripKeyWs resolved (m.key.getD "")
        else if jsTruthyS m.name then
          jsReplaceFirst resolved (m.key.getD "")
            ("@" ++ m.name.getD "")
        else resolved) text
    jsTrim resolved

/-- `escapeXml(value)`, charwise (the sequential char replacements of the
source commute because later patterns never occur in earlier replacement
strings, `&` being replaced first). -/
def escChar (c : Char) : String :=
  if c = Char.ofNat 38 then "&amp;"
  else if c = Char.ofNat 60 then "&lt;"
  else if c = Char.ofNat 62 then "&gt;"
  else if c = Char.ofNat 39 then "&apos;"
  else if c = Char.ofNat 34 then "&quot;"
  else String.singleton c

/-- `escapeXml` over a possibly-undefined value (`null`/`undefined` give
the empty string). -/
def escapeXml (value : Option String) : String :=
  match value with
  | none => ""
  | some s => String.join (s.toList.map escChar)

/-- `buildEndpoint(chatId, { chatType, rootId, parentId, messageId,
threadId })`: the opaque routing string handed to the bridge. -/
def buildEndpoint (chatId : Option String) (chatType rootId parentId
    messageId threadId : Option String) : String :=
  let endpoint := jsTpl chatId
  let endpoint := if jsTruthyS chatType then endpoint ++ "|type:" ++ chatType.getD "" else endpoint
  let endpoint := if jsTruthyS rootId then endpoint ++ "|root:" ++ rootId.getD "" else endpoint
  let endpoint := if jsTruthyS parentId then endpoint ++ "|parent:" ++ parentId.getD "" else endpoint
  let endpoint := if jsTruthyS messageId then endpoint ++ "|msg:" ++ messageId.getD "" else endpoint
  if jsTruthyS threadId then endpoint ++ "|thread:" ++ threadId.getD "" else endpoint

/-- Options record of `formatMessage`. -/
structure FormatOpts where
  quotedContent : Option QuotedContent := none
  threadContext : Option (List HistoryEntry) := none
  threadRootId : Option String := none
  groupName : Option String := none
  smartHint : Bool := false

/-- `[name]: text` line of a context entry (`m.user_name || m.user_id`). -/
def contextLine (m : HistoryEntry) : String :=
  let who := if m.user_name ≠ "" then escapeXml (some m.user_name) else escapeXml m.user_id
  s!"[{who}]: {escapeXml (some m.text)}"

/-- The smart-mode hint block inserted for smart groups. -/
def smartModeBlock : String :=
  "<smart-mode>\nDecide whether to respond. Do NOT reply if: the message is unrelated to you,\n" ++
  s!"just casual chat, or doesn{sq}t need your input. Only reply when:\n" ++
  "1) someone asks a question you can help with,\n" ++
  "2) discussing technical topics you know well,\n" ++
  "3) someone clearly needs assistance.\n" ++
  "When uncertain, prefer NOT to reply. Reply with exactly [SKIP] to stay silent.\n" ++
  "</smart-mode>\n\n"

/-- `formatMessage(chatType, userName, text, contextMessages, mediaPath,
opts)`: the payload text sent to the external agent. -/
def formatMessage (chatType : Option String) (userName : String) (text : String)
    (contextMessages : List HistoryEntry) (mediaPath : Option String)
    (opts : FormatOpts) : String :=
  let gname := escapeXml (some (jsStrOr opts.groupName "unknown"))
  let pfx :=
    if chatType = some "p2p" then "[Feishu DM]"
    else s!"[Feishu GROUP:{gname}]"
  let parts0 := [s!"{pfx} {escapeXml (some userName)} said: "]
  let parts1 :=
    match opts.threadContext with
    | some tc =>
      if tc.length > 0 then
        let lines := tc.map (fun m =>
          let line := contextLine m
          if jsTruthyS opts.threadRootId ∧ m.message_id = opts.threadRootId then
            s!"<thread-root>\n{line}\n</thread-root>"
          else line)
        let joined := String.intercalate "\n" lines
        parts0 ++ [s!"<thread-context>\n{joined}\n</thread-context>\n\n"]
      else if contextMessages.length > 0 then
        let joined := String.intercalate "\n" (contextMessages.map contextLine)
        parts0 ++ [s!"<group-context>\n{joined}\n</group-context>\n\n"]
      else parts0
    | none =>
      if contextMessages.length > 0 then
        let joined := String.intercalate "\n" (contextMessages.map contextLine)
        parts0 ++ [s!"<group-context>\n{joined}\n</group-context>\n\n"]
      else parts0
  let parts2 :=
    match opts.quotedContent, opts.threadContext with
    | some q, none =>
      let qsender := escapeXml (some (jsStrOr (some q.sender) "unknown"))
      let qtext := escapeXml (some q.text)
      parts1 ++ [s!"<replying-to>\n[{qsender}]: {qtext}\n</replying-to>\n\n"]
    | _, _ => parts1
  let parts3 := if opts.smartHint then parts2 ++ [smartModeBlock] else parts2
  let parts4 := parts3 ++ [s!"<current-message>\n{escapeXml (some text)}\n</current-message>"]
  let message := String.join parts4
  match mediaPath with
  | some p => if p ≠ "" then message ++ s!" ---- file: {escapeXml (some p)}" else message
  | none => message

end Feishu

namespace Feishu

/-! ## Configuration persistence and owner binding -/

/-- `saveConfig(newConfig)` of `lib/config.js`: write the file and replace
the module-level config. The function body has no `return` statement, so a
successful call evaluates to `undefined` (modelled `none : Option Bool`);
a failed file write rethrows. -/
def saveConfig (env : Env) (newConfig : Config) (sys : Sys) :
    Sys × Except Unit (Option Bool) :=
  if env.persistOk then
    (emit .configWrite { sys with fileCfg := newConfig, cfg := newConfig }, .ok none)
  else (sys, .error ())

/-- `bindOwner(userId, openId)`: set `config.owner`, persist, and roll back
when the `!saveConfig(config)` check fires. -/
def bindOwner (env : Env) (userId openId : Option String) (sys : Sys) :
    Sys × Except Unit (Option String) :=
  let (sys, userName) := resolveUserName env userId sys
  let previousOwner := sys.cfg.owner
  let newOwner : Owner :=
    { bound := true, user_id := userId, open_id := openId, name := some userName }
  let sys := { sys with cfg := { sys.cfg with owner := some newOwner } }
  match saveConfig env sys.cfg sys with
  | (sys, .error e) => (sys, .error e)
  | (sys, .ok ret) =>
    if !(ret.getD false) then
      ({ sys with cfg := { sys.cfg with owner := previousOwner } }, .ok none)
    else (sys, .ok (some userName))

/-! ## Typing indicator -/

/-- `TYPING_TIMEOUT` — 120 seconds in milliseconds (the auto-expiry timer
scheduled on success is a real-time behaviour and is not replayed here). -/
def TYPING_TIMEOUT : Nat := 120 * 1000

/-- `addTypingIndicator(messageId)`: attach the reaction and record its
handle; any failure (unsuccessful result, missing reaction id, thrown
error) leaves the state unchanged. -/
def addTypingIndicator (env : Env) (messageId : Option String) (sys : Sys) :
    Sys × Bool :=
  let key := jsTpl messageId
  let sys := emit (.reactionAdd key) sys
  match env.addReaction key with
  | .res success reactionId =>
    if success ∧ jsTruthyS reactionId then
      ({ sys with typing := mset sys.typing key (reactionId.getD "") }, true)
    else (sys, false)
  | .throws => (sys, false)

/-- `removeTypingIndicator(messageId)`: no-op without an active indicator;
otherwise remove the reaction, retrying once after a fixed delay, deleting
the handle on success and scheduling one deferred best-effort retry on
repeated failure (the deferred 10-second timer body runs later and is not
replayed here). -/
def removeTypingIndicator (env : Env) (messageId : Option String) (sys : Sys) : Sys :=
  let key := jsTpl messageId
  match mget sys.typing key with
  | none => sys
  | some reactionId =>
    let sys1 := emit (.reactionRemove key reactionId) sys
    match env.removeReaction key 0 with
    | .res true => { sys1 with typing := mdel sys1.typing key }
    | .res false =>
      let sys2 := emit (.reactionRemove key reactionId) sys1
      match env.removeReaction key 1 with
      | .res true => { sys2 with typing := mdel sys2.typing key }
      | _ => emit (.deferredRemoveScheduled key) sys2
    | .throws => emit (.deferredRemoveScheduled key) sys1

/-! ## Outbound bridge dispatcher -/

/-- The `error` object of a structured C4 rejection response. -/
structure C4ErrorObj where
  code : Option String := none
  message : Option String := none
deriving DecidableEq

/-- A parsed c4-receive JSON response (the result of `parseC4Response`;
`none` at the use sites models unparseable stdout). -/
structure C4Response where
  ok : Option Bool := none
  error : Option C4ErrorObj := none
deriving DecidableEq

/-- Outcome of one `execFile` delivery attempt: success, or an error whose
stdout parses (or not) as a structured response. -/
inductive ExecResult where
  | ok
  | err (response : Option C4Response)
deriving DecidableEq

/-- The `response && response.ok === false && response.error?.message`
check: the rejection message when the attempt is a structured rejection. -/
def c4Rejection (response : Option C4Response) : Option String :=
  match response with
  | some r =>
    if r.ok = some false then
      match r.error with
      | some e => if jsTruthyS e.message then some (e.message.getD "") else none
      | none => none
    else none
  | none => none

/-- Observable outcome of one `sendToC4` call: delivery attempts made,
successful deliveries, and invocations of the rejection callback. -/
structure SendStats where
  attempts : Nat := 0
  delivered : Nat := 0
  rejects : Nat := 0
deriving DecidableEq

/-- `sendToC4(source, endpoint, content, onReject)`: empty content is
refused locally; a structured rejection invokes the callback and stops; a
transport-level failure is retried exactly once after the backoff, the
retry outcome being classified the same way. -/
def sendToC4Model (content : String) (firstAttempt retryAttempt : ExecResult) :
    SendStats :=
  if content = "" then {}
  else
    match firstAttempt with
    | .ok => { attempts := 1, delivered := 1 }
    | .err response =>
      match c4Rejection response with
      | some _ => { attempts := 1, rejects := 1 }
      | none =>
        match retryAttempt with
        | .ok => { attempts := 2, delivered := 1 }
        | .err retryResponse =>
          match c4Rejection retryResponse with
          | some _ => { attempts := 2, rejects := 1 }
          | none => { attempts := 2 }

/-! ## Lazy history backfill -/

/-- Record one lazily fetched remote message into the history buffer
(the loop body of `getContextWithFallback`). -/
def lazyRecordOne (env : Env) (historyKey : String) (sys : Sys) (msg : RemoteMsg) :
    Sys :=
  let (sys, userName) := resolveUserName env msg.sender sys
  let text :=
    if msg.type = some "post" then
      match msg.parsedPost with
      | some paragraphs => (extractPostText paragraphs msg.id).1
      | none => msg.content
    else msg.content
  let text :=
    if msg.mentions.isSome ∧ (msg.mentions.getD []).length > 0 then
      resolveMentions text msg.mentions
    else text
  let entry : HistoryEntry :=
    { timestamp := toString msg.createTime, message_id := msg.id,
      user_id := msg.sender, user_name := userName, text := text }
  { sys with histories := recordHistoryEntry sys.cfg historyKey entry sys.histories }

/-- Stable insertion of a message into a list sorted by `createTime`
(JS `Array.prototype.sort` with the `createTime` comparator is stable). -/
def insertByTime (m : RemoteMsg) : List RemoteMsg → List RemoteMsg
  | [] => [m]
  | x :: xs => if x.createTime < m.createTime then x :: insertByTime m xs else m :: x :: xs

/-- Stable sort by `createTime`. -/
def sortByCreateTime : List RemoteMsg → List RemoteMsg
  | [] => []
  | x :: xs => insertByTime x (sortByCreateTime xs)

/-- `getContextWithFallback(containerId, currentMessageId, containerType,
historyKey, historyLimit)`: serve from memory once the key is marked as
lazily loaded; otherwise fetch remote history once, record it in
chronological order, and mark the key — but only when the fetch
succeeds. -/
def getContextWithFallback (env : Env) (containerId : Option String)
    (currentMessageId : Option String) (containerType : String)
    (historyKey : String) (historyLimit : Option Nat) (sys : Sys) :
    Sys × List HistoryEntry :=
  if sys.lazyLoaded.contains historyKey then
    (sys, getInMemoryContext sys.cfg historyKey currentMessageId sys.histories)
  else
    let limit := jsNumOr historyLimit
      (if containerType = "thread" then
        jsNumOr (sys.cfg.message.bind (·.context_messages)) DEFAULT_HISTORY_LIMIT
      else getGroupHistoryLimit sys.cfg containerId)
    let sys := emit (.remoteHistoryFetch (jsTpl containerId)) sys
    match env.listMessages (jsTpl containerId) limit with
    | .success messages =>
      let sys := { sys with lazyLoaded := historyKey :: sys.lazyLoaded }
      let sys :=
        if messages.length > 0 then
          (sortByCreateTime messages).foldl (lazyRecordOne env historyKey) sys
        else sys
      (sys, getInMemoryContext sys.cfg historyKey currentMessageId sys.histories)
    | .failure =>
      (sys, getInMemoryContext sys.cfg historyKey currentMessageId sys.histories)
    | .throws =>
      (sys, getInMemoryContext sys.cfg historyKey currentMessageId sys.histories)

/-- `preloadGroupMembers(chatId)`: once per group, seed member names into
the user-name cache. -/
def preloadGroupMembers (env : Env) (chatId : Option String) (sys : Sys) : Sys :=
  let key := jsTpl chatId
  if sys.preloaded.contains key then sys
  else
    let sys := { sys with preloaded := key :: sys.preloaded }
    let sys := emit (.memberPreload key) sys
    match env.listChatMembers key with
    | .res true (some members) =>
      members.foldl (fun sys member =>
        if jsTruthyS member.memberId ∧ jsTruthyS member.name ∧
            (mget sys.userCache (member.memberId.getD "")).isNone then
          { sys with
              userCache := mset sys.userCache (member.memberId.getD "")
                ⟨member.name.getD "", env.now + SENDER_NAME_TTL⟩,
              cacheDirty := true }
        else sys) sys
    | _ => sys

/-! ## Audit log and cursors -/

/-- `logMessage(chatType, chatId, userId, openId, text, messageId,
timestamp, mentions, threadId)`: append to the per-chat (per-thread) audit
log and record into the in-memory history — thread messages into the
thread bucket only, group messages into the chat bucket, direct messages
into no bucket. -/
def logMessage (env : Env) (chatType chatId userId openId : Option String)
    (text : String) (messageId : Option String) (timestamp : Option String)
    (mentions : Option (List Mention)) (threadId : Option String) (sys : Sys) :
    Sys :=
  let (sys, userName) := resolveUserName env userId sys
  let resolvedText := resolveMentions text mentions
  let logEntry : HistoryEntry :=
    { timestamp := jsStrOr timestamp env.nowIso,
      message_id := messageId,
      user_id := userId,
      open_id := openId,
      user_name := userName,
      text := resolvedText }
  let logId := if chatType = some "p2p" then userId else chatId
  let safeLogId := sanitize (jsTpl logId)
  let logFileName :=
    if jsTruthyS threadId then
      safeLogId ++ "_t_" ++ sanitize (threadId.getD "") ++ ".log"
    else safeLogId ++ ".log"
  let sys := emit (.fileLogAppend logFileName) sys
  if jsTruthyS threadId then
    { sys with histories :=
        recordHistoryEntry sys.cfg (getHistoryKey (jsTpl chatId) threadId) logEntry sys.histories }
  else if chatType = some "group" then
    { sys with histories := recordHistoryEntry sys.cfg (jsTpl chatId) logEntry sys.histories }
  else sys

/-- `updateCursor(chatId, messageId)`: record the cursor and persist the
cursor file (a failed save only logs). -/
def updateCursor (chatId messageId : Option String) (sys : Sys) : Sys :=
  emit .cursorSave { sys with cursors := mset sys.cursors (jsTpl chatId) messageId }

/-- `fetchQuotedMessage(messageId)` — one remote message fetch returning
resolved quoted content, or `none` on failure (the internal text
extraction of the fetched message is part of the oracle). -/
def fetchQuotedMessage (env : Env) (messageId : String) (sys : Sys) :
    Sys × Option QuotedContent :=
  (emit (.quotedFetch messageId) sys, env.fetchQuoted messageId)

/-- `sendThreadAwareMessage(chatId, text, { threadId, rootId, parentId,
messageId })`: reply in-thread when possible, fall back to a plain chat
message (the promise rejection is caught at every call site). -/
def sendThreadAwareMessage (env : Env) (chatId : Option String) (text : String)
    (threadId rootId parentId messageId : Option String) (sys : Sys) : Sys × Bool :=
  let replyTarget :=
    match jsStrOpt parentId with
    | some t => some t
    | none =>
      match jsStrOpt rootId with
      | some t => some t
      | none => jsStrOpt messageId
  if (jsTruthyS threadId ∨ jsTruthyS rootId) ∧ replyTarget.isSome then
    let sys := emit (.replyMsg (replyTarget.getD "") text) sys
    match env.replyToMessage (replyTarget.getD "") with
    | .res true => (sys, true)
    | _ =>
      let sys := emit (.sendMsg (jsTpl chatId) text) sys
      match env.sendMessage (jsTpl chatId) with
      | .res success => (sys, success)
      | .throws => (sys, false)
  else
    let sys := emit (.sendMsg (jsTpl chatId) text) sys
    match env.sendMessage (jsTpl chatId) with
    | .res success => (sys, success)
    | .throws => (sys, false)

end Feishu

namespace Feishu

/-! ## The message handler -/

/-- The DM rejection reply text. -/
def dmRejectText : String :=
  s!"Sorry, I{sq}m not available for private messages. Please ask my owner to grant you access."

/-- Reply when group policy is disabled. -/
def groupDisabledText : String := "Sorry, group chat is currently disabled."

/-- Reply when the group is not allowed by policy. -/
def groupNotAllowedText : String := s!"Sorry, I{sq}m not available in this group."

/-- Reply when the sender is not in the per-group allowlist. -/
def groupSenderDeniedText : String :=
  s!"Sorry, you don{sq}t have permission to interact with me in this group."

/-- The local variables `handleMessage` computes before branching on the
chat type. -/
structure MsgFields where
  mentions : Option (List Mention) := none
  senderUserId : Option String := none
  senderOpenId : Option String := none
  chatId : Option String := none
  messageId : Option String := none
  chatType : Option String := none
  rootId : Option String := none
  parentId : Option String := none
  threadId : Option String := none
  text : String := ""
  imageKeys : List String := []
  fileKey : Option String := none
  fileName : Option String := none
  logText : String := ""
  endpoint : String := ""
  timestamp : Option String := none
deriving DecidableEq

/-- The return site a `handleMessage` run ends at (instrumentation over the
JS function, which returns `undefined` everywhere). -/
inductive HMOutcome where
  | selfSkip
  | dupSkip
  | ownerBindFailed
  | dmDenied
  | sentP2p
  | groupDisabledDenied
  | groupNotAllowedDenied
  | groupSenderDenied
  | groupLogOnly
  | sentGroup
  | groupMediaFailed
  | fallthrough
deriving DecidableEq

/-- `MEDIA_DIR` under the data directory. -/
def mediaDir (env : Env) : String := env.home ++ "/zylos/components/feishu/media"

/-- `new Date().toISOString().replace(/[:.]/g, '-')`. -/
def isoForFile (s : String) : String :=
  String.mk (s.toList.map (fun c =>
    if c = Char.ofNat 58 ∨ c = Char.ofNat 46 then Char.ofNat 45 else c))

/-- `path.basename`: the part after the last path separator. -/
def pathBasename (s : String) : String :=
  String.mk ((s.toList.reverse.takeWhile (fun c => c ≠ Char.ofNat 47)).reverse)

/-- Charwise `replace(/[^a-zA-Z0-9_.-]/g, '_')` (dots kept) for download
file names. -/
def sanitizeFileName (s : String) : String :=
  String.mk (s.toList.map (fun c =>
    if c.isAlpha ∨ c.isDigit ∨ c = Char.ofNat 95 ∨ c = Char.ofNat 45 ∨ c = Char.ofNat 46
    then c else Char.ofNat 95))

/-- `buildSafeDownloadPath(downloadDir, prefix, fileName)`: sanitise the
base name and check containment (resolution modelled as plain joining;
the sanitised name contains no separator, so the check passes). -/
def buildSafeDownloadPath (downloadDir pfx : String) (fileName : Option String) :
    Except Unit String :=
  let safeName :=
    let n := sanitizeFileName (pathBasename (jsStrOr fileName "file"))
    if n = "" then "file" else n
  let filePath := downloadDir ++ "/" ++ pfx ++ "-" ++ safeName
  if (downloadDir ++ "/").toList.isPrefixOf filePath.toList then .ok filePath
  else .error ()

/-- Thread-context / quoted-content fetch shared by the two branches of
`handleMessage` (the `if (threadId) ... else if (parentId)` block). -/
def fetchRoutingContext (env : Env) (f : MsgFields) (threadHistoryLimit : Nat)
    (sys : Sys) : Sys × Option (List HistoryEntry) × Option QuotedContent :=
  if jsTruthyS f.threadId then
    let threadHistoryKey := getHistoryKey (jsTpl f.chatId) f.threadId
    let (sys, tc) := getContextWithFallback env f.threadId f.messageId "thread"
      threadHistoryKey (some threadHistoryLimit) sys
    let tc :=
      if jsTruthyS f.rootId then
        (pinRootMessage (some tc) f.rootId threadHistoryKey sys.histories).getD tc
      else tc
    (sys, some tc, none)
  else if jsTruthyS f.parentId then
    let (sys, q) := fetchQuotedMessage env (f.parentId.getD "") sys
    (sys, none, q)
  else (sys, none, none)

/-- The private-chat branch after the owner-binding and DM-policy gates
(logging, typing indicator, context, media handling, dispatch). -/
def handleP2pRest (env : Env) (f : MsgFields) (sys : Sys) :
    Sys × Except Unit HMOutcome :=
  let sys := logMessage env f.chatType f.chatId f.senderUserId f.senderOpenId
    f.logText f.messageId f.timestamp f.mentions f.threadId sys
  let sys := (addTypingIndicator env f.messageId sys).1
  let threadHistoryLimit :=
    jsNumOr (sys.cfg.message.bind (·.context_messages)) DEFAULT_HISTORY_LIMIT
  let (sys, threadContext, quotedContent) :=
    fetchRoutingContext env f threadHistoryLimit sys
  let (sys, senderName) := resolveUserName env f.senderUserId sys
  let cleanText := resolveMentions f.text f.mentions
  let threadRootId := if jsTruthyS f.threadId then f.rootId else none
  let opts : FormatOpts :=
    { quotedContent := quotedContent, threadContext := threadContext,
      threadRootId := threadRootId }
  if f.imageKeys.length > 0 then
    let step := fun (acc : Sys × List String) (imgKey : String) =>
      let (sys, paths) := acc
      let ts := isoForFile env.nowIso
      let localPath := mediaDir env ++ "/feishu-" ++ ts ++ "-" ++
        lastChars 8 (keepIdChars imgKey) ++ ".png"
      let sys := emit (.mediaDownload imgKey) sys
      if env.downloadImage imgKey then (sys, paths ++ [localPath]) else (sys, paths)
    let (sys, mediaPaths) := f.imageKeys.foldl step (sys, [])
    if mediaPaths.length > 0 then
      let mediaLabel :=
        if mediaPaths.length = 1 then "[image]" else s!"[{mediaPaths.length} images]"
      let body := mediaLabel ++ (if cleanText ≠ "" then " " ++ cleanText else "")
      let msg := formatMessage (some "p2p") senderName body [] mediaPaths.head? opts
      (emit (.dispatchC4 f.endpoint msg) sys, .ok .sentP2p)
    else
      let msg := formatMessage (some "p2p") senderName "[image download failed]" [] none opts
      (emit (.dispatchC4 f.endpoint msg) sys, .ok .sentP2p)
  else if jsTruthyS f.fileKey then
    let ts := isoForFile env.nowIso
    let localPath :=
      match buildSafeDownloadPath (mediaDir env) ("feishu-" ++ ts) f.fileName with
      | .ok p => some p
      | .error _ => none
    let sys := if localPath.isSome then emit (.mediaDownload (f.fileKey.getD "")) sys else sys
    let dlOk := localPath.isSome ∧ env.downloadFile (f.fileKey.getD "")
    if dlOk ∧ localPath.isSome then
      let msg := formatMessage (some "p2p") senderName s!"[file: {jsTpl f.fileName}]"
        [] localPath opts
      (emit (.dispatchC4 f.endpoint msg) sys, .ok .sentP2p)
    else
      let msg := formatMessage (some "p2p") senderName
        s!"[file download failed: {jsTpl f.fileName}]" [] none opts
      (emit (.dispatchC4 f.endpoint msg) sys, .ok .sentP2p)
  else
    let msg := formatMessage (some "p2p") senderName cleanText [] none opts
    (emit (.dispatchC4 f.endpoint msg) sys, .ok .sentP2p)

/-- The private-chat branch of `handleMessage`: bind the owner when
unbound, enforce the DM policy, then process. -/
def handleP2p (env : Env) (f : MsgFields) (sys : Sys) :
    Sys × Except Unit HMOutcome :=
  let ownerBound :=
    match sys.cfg.owner with
    | some o => o.bound
    | none => false
  if !ownerBound then
    match bindOwner env f.senderUserId f.senderOpenId sys with
    | (sys, .error e) => (sys, .error e)
    | (sys, .ok boundOwner) =>
      if !jsTruthyS boundOwner then (sys, .ok .ownerBindFailed)
      else
        if !isDmAllowed sys.cfg f.senderUserId f.senderOpenId then
          (emit (.sendMsg (jsTpl f.chatId) dmRejectText) sys, .ok .dmDenied)
        else handleP2pRest env f sys
  else
    if !isDmAllowed sys.cfg f.senderUserId f.senderOpenId then
      (emit (.sendMsg (jsTpl f.chatId) dmRejectText) sys, .ok .dmDenied)
    else handleP2pRest env f sys

/-- The group branch after the policy gates (logging, preload, context,
cursor, typing, media handling, dispatch). -/
def handleGroupAllowed (env : Env) (f : MsgFields) (smartNoMention : Bool)
    (sys : Sys) : Sys × Except Unit HMOutcome :=
  let sys := logMessage env f.chatType f.chatId f.senderUserId f.senderOpenId
    f.logText f.messageId f.timestamp f.mentions f.threadId sys
  let sys := preloadGroupMembers env f.chatId sys
  let (sys, contextMessages) := getContextWithFallback env f.chatId f.messageId
    "chat" (jsTpl f.chatId) none sys
  let sys := updateCursor f.chatId f.messageId sys
  let sys := if !smartNoMention then (addTypingIndicator env f.messageId sys).1 else sys
  let threadHistoryLimit := getGroupHistoryLimit sys.cfg f.chatId
  let (sys, threadContext, quotedContent) :=
    fetchRoutingContext env f threadHistoryLimit sys
  let (sys, senderName) := resolveUserName env f.senderUserId sys
  let cleanText := resolveMentions f.text f.mentions
  let cleanLogText := resolveMentions f.logText f.mentions
  let threadRootId := if jsTruthyS f.threadId then f.rootId else none
  let groupName := getGroupName sys.cfg f.chatId
  let baseOpts : FormatOpts :=
    { quotedContent := quotedContent, threadContext := threadContext,
      threadRootId := threadRootId, groupName := some groupName }
  if f.imageKeys.length > 0 then
    if smartNoMention then
      let body := if cleanLogText ≠ "" then cleanLogText else "[image]"
      let msg := formatMessage (some "group") senderName body contextMessages none
        { baseOpts with smartHint := true }
      (emit (.dispatchC4 f.endpoint msg) sys, .ok .sentGroup)
    else
      let step := fun (acc : Sys × List String) (imgKey : String) =>
        let (sys, paths) := acc
        let ts := isoForFile env.nowIso
        let localPath := mediaDir env ++ "/feishu-group-" ++ ts ++ "-" ++
          lastChars 8 (keepIdChars imgKey) ++ ".png"
        let sys := emit (.mediaDownload imgKey) sys
        if env.downloadImage imgKey then (sys, paths ++ [localPath]) else (sys, paths)
      let (sys, mediaPaths) := f.imageKeys.foldl step (sys, [])
      if mediaPaths.length > 0 then
        let mediaLabel :=
          if mediaPaths.length = 1 then "[image]" else s!"[{mediaPaths.length} images]"
        let body := mediaLabel ++ (if cleanText ≠ "" then " " ++ cleanText else "")
        let msg := formatMessage (some "group") senderName body contextMessages
          mediaPaths.head? baseOpts
        (emit (.dispatchC4 f.endpoint msg) sys, .ok .sentGroup)
      else
        let sys := removeTypingIndicator env f.messageId sys
        let sys := (sendThreadAwareMessage env f.chatId
          "Image download failed. Please resend the image."
          f.threadId f.rootId f.parentId f.messageId sys).1
        (sys, .ok .groupMediaFailed)
  else if jsTruthyS f.fileKey then
    if smartNoMention then
      let body := if cleanLogText ≠ "" then cleanLogText else s!"[file: {jsTpl f.fileName}]"
      let msg := formatMessage (some "group") senderName body contextMessages none
        { baseOpts with smartHint := true }
      (emit (.dispatchC4 f.endpoint msg) sys, .ok .sentGroup)
    else
      let ts := isoForFile env.nowIso
      let localPath :=
        match buildSafeDownloadPath (mediaDir env) ("feishu-group-" ++ ts) f.fileName with
        | .ok p => some p
        | .error _ => none
      let sys := if localPath.isSome then emit (.mediaDownload (f.fileKey.getD "")) sys else sys
      let dlOk := localPath.isSome ∧ env.downloadFile (f.fileKey.getD "")
      if dlOk ∧ localPath.isSome then
        let body := s!"[file: {jsTpl f.fileName}]" ++
          (if cleanText ≠ "" then " " ++ cleanText else "")
        let msg := formatMessage (some "group") senderName body contextMessages
          localPath baseOpts
        (emit (.dispatchC4 f.endpoint msg) sys, .ok .sentGroup)
      else
        let sys := removeTypingIndicator env f.messageId sys
        let sys := (sendThreadAwareMessage env f.chatId
          "File download failed. Please resend the file."
          f.threadId f.rootId f.parentId f.messageId sys).1
        (sys, .ok .groupMediaFailed)
  else
    let body := if cleanText ≠ "" then cleanText else f.text
    let msg := formatMessage (some "group") senderName body contextMessages none
      { baseOpts with smartHint := smartNoMention }
    (emit (.dispatchC4 f.endpoint msg) sys, .ok .sentGroup)

/-- The group branch of `handleMessage`: disabled policy, group allowlist,
per-group sender allowlist, mention requirement, then processing. -/
def handleGroup (env : Env) (f : MsgFields) (sys : Sys) :
    Sys × Except Unit HMOutcome :=
  let mentioned := isBotMentioned f.mentions (some env.botOpenId)
  let senderIsOwner := isOwner sys.cfg f.senderUserId f.senderOpenId
  let groupPolicy := jsStrOr sys.cfg.groupPolicy "allowlist"
  if groupPolicy = "disabled" then
    let sys :=
      if mentioned then emit (.replyMsg (jsTpl f.messageId) groupDisabledText) sys
      else sys
    (sys, .ok .groupDisabledDenied)
  else
    let allowedGroup := isGroupAllowed sys.cfg f.chatId
    let smart := isSmartGroup sys.cfg f.chatId
    let smartNoMention := smart && !mentioned
    if !allowedGroup && !(senderIsOwner && mentioned) then
      let sys :=
        if mentioned then emit (.replyMsg (jsTpl f.messageId) groupNotAllowedText) sys
        else sys
      (sys, .ok .groupNotAllowedDenied)
    else if !(isSenderAllowedInGroup sys.cfg f.chatId f.senderUserId f.senderOpenId)
        && !senderIsOwner then
      let sys :=
        if mentioned then emit (.replyMsg (jsTpl f.messageId) groupSenderDeniedText) sys
        else sys
      (sys, .ok .groupSenderDenied)
    else if !smart && !mentioned then
      let sys :=
        if allowedGroup then
          logMessage env f.chatType f.chatId f.senderUserId f.senderOpenId
            f.logText f.messageId f.timestamp f.mentions f.threadId sys
        else sys
      (sys, .ok .groupLogOnly)
    else handleGroupAllowed env f smartNoMention sys

/-- The coalesced sender identifier of an event:
`sender.sender_id?.open_id || sender.sender_id?.app_id ||
sender.sender_id?.user_id || ''`. -/
def eventSenderId (data : EventData) : String :=
  jsStrOr (data.sender.sender_id.bind (·.open_id))
    (jsStrOr (data.sender.sender_id.bind (·.app_id))
      (jsStrOr (data.sender.sender_id.bind (·.user_id)) ""))

/-- The self-sender guard condition of `handleMessage`: a non-empty sender
identifier matching the bot app id, bot open id, configured `app_id` or
configured `bot_open_id` (each coalesced with `''`). -/
def isSelfSender (env : Env) (cfg : Config) (senderId : String) : Bool :=
  senderId ≠ "" &&
    (senderId = env.botAppId || senderId = env.botOpenId ||
     senderId = jsStrEmpty cfg.app_id || senderId = jsStrEmpty cfg.bot_open_id)

/-- `handleMessage(data)`: self-sender guard, dedup, content extraction,
endpoint construction, then the private-chat or group branch. -/
def handleMessage (env : Env) (data : EventData) (sys : Sys) :
    Sys × Except Unit HMOutcome :=
  let message := data.message
  let sender := data.sender
  let mentions := message.mentions
  if isSelfSender env sys.cfg (eventSenderId data) then
    (sys, .ok .selfSkip)
  else
    let senderUserId := sender.sender_id.bind (·.user_id)
    let senderOpenId := sender.sender_id.bind (·.open_id)
    let chatId := message.chat_id
    let messageId := message.message_id
    let chatType := message.chat_type
    let rootId := jsStrOpt message.root_id
    let parentId := jsStrOpt message.parent_id
    let threadId := jsStrOpt message.thread_id
    let (processed, dup) := isDuplicate env.now messageId sys.processed
    let sys := { sys with processed := processed }
    if dup then (sys, .ok .dupSkip)
    else
      let e := extractMessageContent message
      let logText := e.imageKeys.foldl (fun lt imgKey =>
        let imageInfo := s!"[image, image_key: {imgKey}, msg_id: {jsTpl messageId}]"
        if lt ≠ "" then lt ++ "\n" ++ imageInfo else imageInfo) e.text
      let logText :=
        if jsTruthyS e.fileKey then
          let fk := jsStrEmpty e.fileKey
          let fileInfo := s!"[file: {jsTpl e.fileName}, file_key: {fk}, msg_id: {jsTpl messageId}]"
          if logText ≠ "" then logText ++ "\n" ++ fileInfo else fileInfo
        else logText
      let endpoint := buildEndpoint chatId chatType rootId parentId messageId threadId
      let f : MsgFields :=
        { mentions := mentions, senderUserId := senderUserId,
          senderOpenId := senderOpenId, chatId := chatId, messageId := messageId,
          chatType := chatType, rootId := rootId, parentId := parentId,
          threadId := threadId, text := e.text, imageKeys := e.imageKeys,
          fileKey := e.fileKey, fileName := e.fileName, logText := logText,
          endpoint := endpoint, timestamp := data.timestamp }
      if chatType = some "p2p" then handleP2p env f sys
      else if chatType = some "group" then handleGroup env f sys
      else (sys, .ok .fallthrough)

end Feishu

namespace Feishu

/-! ## Trace counting helpers -/

/-- Whether an effect is a remote history fetch. -/
def isHistoryFetchEff : Effect → Bool
  | .remoteHistoryFetch _ => true
  | _ => false

/-- Number of remote history fetches recorded in the trace. -/
def fetchCount (sys : Sys) : Nat := sys.trace.countP isHistoryFetchEff

/-- Whether an effect is a dispatch to the external agent. -/
def isDispatchEff : Effect → Bool
  | .dispatchC4 _ _ => true
  | _ => false

/-- Number of dispatches to the external agent recorded in the trace. -/
def dispatchCount (sys : Sys) : Nat := sys.trace.countP isDispatchEff

/-- Whether an effect is a reaction-removal API call. -/
def isReactionRemoveEff : Effect → Bool
  | .reactionRemove _ _ => true
  | _ => false

/-- Number of reaction-removal API calls recorded in the trace. -/
def removeCallCount (sys : Sys) : Nat := sys.trace.countP isReactionRemoveEff

/-! ## Association-list lemmas -/

theorem mget_append_of_none {α : Type} {a : List (String × α)} (b : List (String × α))
    {k : String} (h : mget a k = none) : mget (a ++ b) k = mget b k := by
  induction a with
  | nil => simp
  | cons p rest ih =>
    obtain ⟨k1, v1⟩ := p
    by_cases hk : k1 = k
    · simp [mget, hk] at h
    · simp [mget, hk] at h ⊢
      exact ih h

theorem mget_eq_none_iff {α : Type} (m : List (String × α)) (k : String) :
    mget m k = none ↔ ∀ p ∈ m, p.1 ≠ k := by
  induction m with
  | nil => simp [mget]
  | cons p rest ih =>
    obtain ⟨k1, v1⟩ := p
    by_cases h : k1 = k <;> simp [mget, h, ih]

theorem mget_filter_of_none {α : Type} (m : List (String × α))
    (p : String × α → Bool) (k : String) (h : mget m k = none) :
    mget (m.filter p) k = none := by
  induction m with
  | nil => simp [mget]
  | cons q rest ih =>
    obtain ⟨k1, v1⟩ := q
    by_cases hk : k1 = k
    · simp [mget, hk] at h
    · simp [mget, hk] at h
      by_cases hp : p (k1, v1) <;> simp [List.filter, hp, mget, hk, ih h]

theorem mget_mset_self {α : Type} (m : List (String × α)) (k : String) (v : α) :
    mget (mset m k v) k = some v := by
  induction m with
  | nil => simp [mget, mset]
  | cons q rest ih =>
    obtain ⟨k1, v1⟩ := q
    by_cases hk : k1 = k <;> simp [mset, hk, mget, ih]

theorem mget_mset_ne {α : Type} (m : List (String × α)) (k k2 : String) (v : α)
    (h : k ≠ k2) : mget (mset m k v) k2 = mget m k2 := by
  induction m with
  | nil => simp [mget, mset, h]
  | cons q rest ih =>
    obtain ⟨k1, v1⟩ := q
    by_cases hk : k1 = k
    · subst hk
      simp [mset, mget, h]
    · by_cases hk2 : k1 = k2
      · subst hk2
        simp [mset, hk, mget]
      · simp [mset, hk, mget, hk2, ih]

theorem mget_mdel_mset_of_none {α : Type} (m : List (String × α)) (k : String)
    (v : α) (h : mget m k = none) : mget (mdel (mset m k v) k) k = none := by
  induction m with
  | nil => simpa [mset, mdel] using h
  | cons q rest ih =>
    obtain ⟨k1, v1⟩ := q
    by_cases hk : k1 = k
    · simp [mget, hk] at h
    · simp [mget, hk] at h
      simp [mset, mdel, hk, mget, ih h]

end Feishu

namespace Feishu

/-- A fresh non-empty id is reported as not duplicate and recorded; the
resulting ledger is some prefix without the id followed by the new entry. -/
theorem isDuplicate_fresh (now : Nat) (e : String) (m : List (String × Nat))
    (he : e ≠ "") (hfresh : mget m e = none) :
    (isDuplicate now (some e) m).2 = false
    ∧ ∃ A, (isDuplicate now (some e) m).1 = A ++ [(e, now)] ∧ mget A e = none := by
  unfold isDuplicate
  rw [if_neg (by simp [jsTruthyS, he])]
  simp only [Option.getD_some]
  rw [if_neg (by simp [hfresh])]
  refine ⟨rfl, ?_⟩
  dsimp only
  by_cases hl : (m ++ [(e, now)]).length > 200
  · rw [if_pos hl]
    refine ⟨m.filter (fun p => !(now - p.2 > DEDUP_TTL)), ?_,
      mget_filter_of_none _ _ _ hfresh⟩
    rw [List.filter_append]
    have hone : List.filter (fun (p : String × Nat) => !(now - p.2 > DEDUP_TTL))
        [(e, now)] = [(e, now)] := by simp
    rw [hone]
  · rw [if_neg hl]
    exact ⟨m, rfl, hfresh⟩

/-- A recorded non-empty id is reported as duplicate and the ledger is left
unchanged. -/
theorem isDuplicate_present (now : Nat) (e : String) (m : List (String × Nat))
    (he : e ≠ "") (v : Nat) (hpresent : mget m e = some v) :
    isDuplicate now (some e) m = (m, true) := by
  unfold isDuplicate
  simp [jsTruthyS, he, hpresent]

/-- C4: for every non-empty event id `e` not yet in the ledger, the first
dedup check returns `false` and records `e`; a second check within the TTL
window returns `true`; and after the TTL has elapsed and the periodic sweep
has evicted expired entries, a third check returns `false` again. -/
theorem dedup_check_lifecycle (e : String) (m0 : List (String × Nat))
    (t0 t1 t2 : Nat) (he : e ≠ "") (hfresh : mget m0 e = none)
    (_hwithin : t1 - t0 ≤ DEDUP_TTL) (helapsed : t2 - t0 > DEDUP_TTL) :
    (isDuplicate t0 (some e) m0).2 = false
    ∧ mget (isDuplicate t0 (some e) m0).1 e = some t0
    ∧ (isDuplicate t1 (some e) (isDuplicate t0 (some e) m0).1).2 = true
    ∧ (isDuplicate t2 (some e)
        (dedupSweep t2 (isDuplicate t1 (some e) (isDuplicate t0 (some e) m0).1).1)).2
      = false := by
  obtain ⟨hr1, A, hA, hAnone⟩ := isDuplicate_fresh t0 e m0 he hfresh
  have hm1 : mget (isDuplicate t0 (some e) m0).1 e = some t0 := by
    rw [hA, mget_append_of_none _ hAnone]
    simp [mget]
  have h2 := isDuplicate_present t1 e (isDuplicate t0 (some e) m0).1 he t0 hm1
  have hswept : mget (dedupSweep t2 (isDuplicate t0 (some e) m0).1) e = none := by
    unfold dedupSweep
    rw [hA, List.filter_append]
    have : (fun (p : String × Nat) => !(t2 - p.2 > DEDUP_TTL)) (e, t0) = false := by
      simp [helapsed]
    simp only [List.filter, this]
    rw [List.append_nil]
    exact mget_filter_of_none _ _ _ hAnone
  refine ⟨hr1, hm1, by rw [h2], ?_⟩
  rw [h2]
  obtain ⟨hr3, _⟩ := isDuplicate_fresh t2 e _ he hswept
  exact hr3

/-- Witness for the dedup lifecycle at a concrete id and concrete times. -/
theorem dedup_check_lifecycle_witness :
    (isDuplicate 0 (some "ev_1") []).2 = false
    ∧ mget (isDuplicate 0 (some "ev_1") []).1 "ev_1" = some 0
    ∧ (isDuplicate 1000 (some "ev_1") (isDuplicate 0 (some "ev_1") []).1).2 = true
    ∧ (isDuplicate 300001 (some "ev_1")
        (dedupSweep 300001 (isDuplicate 1000 (some "ev_1") (isDuplicate 0 (some "ev_1") []).1).1)).2
      = false :=
  dedup_check_lifecycle "ev_1" [] 0 1000 300001 (by decide) (by decide)
    (by decide) (by decide)

end Feishu

namespace Feishu

/-- C7: for every non-empty content, a transport-level failure of the first
delivery attempt (an error that does not parse as a structured rejection)
followed by a successful retry yields exactly one delivered message and
zero rejection callbacks; a structured rejection on the first attempt
yields no retry (one attempt total) and exactly one rejection callback. -/
theorem sendToC4_retry_semantics (content : String) (p : Option C4Response)
    (hcontent : content ≠ "") :
    (c4Rejection p = none →
      sendToC4Model content (.err p) .ok =
        { attempts := 2, delivered := 1, rejects := 0 })
    ∧ (∀ m retryAttempt, c4Rejection p = some m →
      sendToC4Model content (.err p) retryAttempt =
        { attempts := 1, delivered := 0, rejects := 1 }) := by
  constructor
  · intro hrej
    unfold sendToC4Model
    rw [if_neg hcontent]
    simp [hrej]
  · intro m retryAttempt hrej
    unfold sendToC4Model
    rw [if_neg hcontent]
    simp [hrej]

/-- Witness for the dispatcher retry semantics: a transport failure
(unparseable stdout) retried successfully, and a structured rejection. -/
theorem sendToC4_retry_semantics_witness :
    sendToC4Model "hello" (.err none) .ok =
      { attempts := 2, delivered := 1, rejects := 0 }
    ∧ sendToC4Model "hello"
        (.err (some { ok := some false, error := some { message := some "quota" } })) .ok =
      { attempts := 1, delivered := 0, rejects := 1 } :=
  ⟨(sendToC4_retry_semantics "hello" none (by decide)).1 (by decide),
   (sendToC4_retry_semantics "hello"
      (some { ok := some false, error := some { message := some "quota" } })
      (by decide)).2 "quota" .ok (by decide)⟩

end Feishu

namespace Feishu

theorem jsFindIndex_eq_none_iff {α : Type} (p : α → Bool) (l : List α) :
    jsFindIndex p l = none ↔ l.any p = false := by
  induction l with
  | nil => simp [jsFindIndex]
  | cons x xs ih =>
    by_cases hx : p x
    · simp [jsFindIndex, hx]
    · simp [jsFindIndex, hx, ih]

theorem jsFindIndex_some_get {α : Type} (p : α → Bool) (l : List α) (i : Nat)
    (h : jsFindIndex p l = some i) : ∃ a, l.get? i = some a ∧ p a = true := by
  induction l generalizing i with
  | nil => simp [jsFindIndex] at h
  | cons x xs ih =>
    by_cases hx : p x
    · simp [jsFindIndex, hx] at h
      subst h
      exact ⟨x, rfl, hx⟩
    · simp [jsFindIndex, hx] at h
      obtain ⟨j, hj, hji⟩ := h
      obtain ⟨a, ha, hpa⟩ := ih j hj
      subst hji
      exact ⟨a, by simpa using ha, hpa⟩

/-- C8: root pinning. With a non-empty root id: if the root message is in
the window it ends up at position 0; if it is absent from the window but
present in the full buffer for the key, the buffer entry is prepended; if
it is present nowhere, the window is returned unchanged (and the function
is total, hence never throws). -/
theorem pinRootMessage_spec (ctx : List HistoryEntry) (r historyKey : String)
    (hs : List (String × List HistoryEntry)) (hr : r ≠ "") :
    (ctx.any (fun m => m.message_id = some r) = true →
      ∃ e rest, pinRootMessage (some ctx) (some r) historyKey hs = some (e :: rest)
        ∧ e.message_id = some r)
    ∧ (ctx.any (fun m => m.message_id = some r) = false →
       ∀ full, mget hs historyKey = some full →
       ∀ e, full.find? (fun m => m.message_id = some r) = some e →
        pinRootMessage (some ctx) (some r) historyKey hs = some (e :: ctx))
    ∧ (ctx.any (fun m => m.message_id = some r) = false →
       ((mget hs historyKey).getD []).any (fun m => m.message_id = some r) = false →
        pinRootMessage (some ctx) (some r) historyKey hs = some ctx) := by
  unfold pinRootMessage
  dsimp only
  rw [if_neg hr]
  refine ⟨?_, ?_, ?_⟩
  · intro hany
    cases h : jsFindIndex (fun m => m.message_id = some r) ctx with
    | none =>
      rw [jsFindIndex_eq_none_iff] at h
      rw [h] at hany
      exact absurd hany (by simp)
    | some i =>
      obtain ⟨a, ha, hpa⟩ := jsFindIndex_some_get _ _ _ h
      cases i with
      | zero =>
        dsimp only
        cases ctx with
        | nil => simp at ha
        | cons hd tl =>
          simp at ha
          subst ha
          exact ⟨hd, tl, rfl, by simpa using hpa⟩
      | succ j =>
        dsimp only
        rw [ha]
        exact ⟨a, ctx.eraseIdx (j + 1), rfl, by simpa using hpa⟩
  · intro hany full hfull e hfind
    rw [(jsFindIndex_eq_none_iff _ _).2 hany, hfull]
    dsimp only
    rw [hfind]
  · intro hany hnone
    rw [(jsFindIndex_eq_none_iff _ _).2 hany]
    cases hfull : mget hs historyKey with
    | none => rfl
    | some full =>
      rw [hfull] at hnone
      simp only [Option.getD_some] at hnone
      have hfn : full.find? (fun m => m.message_id = some r) = none := by
        rw [List.find?_eq_none]
        intro x hx
        have := List.any_eq_false.mp hnone x hx
        simpa using this
      dsimp only
      rw [hfn]

/-- Witness for root pinning at concrete windows and buffers: a window
containing the root, a window whose root is only in the full buffer, and a
window whose root exists nowhere. -/
theorem pinRootMessage_spec_witness :
    (∃ e rest, pinRootMessage
        (some [{ message_id := some "a" }, { message_id := some "r" }])
        (some "r") "k" [] = some (e :: rest) ∧ e.message_id = some "r")
    ∧ pinRootMessage (some [{ message_id := some "a" }]) (some "r") "k"
        [("k", [{ message_id := some "r" }])]
      = some ({ message_id := some "r" } :: [{ message_id := some "a" }])
    ∧ pinRootMessage (some [{ message_id := some "a" }]) (some "r") "k"
        [("k", [{ message_id := some "b" }])]
      = some [{ message_id := some "a" }] :=
  ⟨(pinRootMessage_spec [{ message_id := some "a" }, { message_id := some "r" }]
      "r" "k" [] (by decide)).1 (by decide),
   (pinRootMessage_spec [{ message_id := some "a" }] "r" "k"
      [("k", [{ message_id := some "r" }])] (by decide)).2.1 (by decide)
      [{ message_id := some "r" }] (by decide) { message_id := some "r" } (by decide),
   (pinRootMessage_spec [{ message_id := some "a" }] "r" "k"
      [("k", [{ message_id := some "b" }])] (by decide)).2.2 (by decide) (by decide)⟩

end Feishu

namespace Feishu

/-- C9: engagement-indicator completion is idempotent. After a successful
start (reaction attached, handle recorded), a completion whose removal
call succeeds removes the indicator with exactly one removal API call; a
second completion for the same message changes nothing; and in general a
completion signal for a message with no active indicator is a no-op. -/
theorem typing_complete_idempotent (env : Env) (mid : Option String) (sys : Sys)
    (rid : String)
    (hadd : env.addReaction (jsTpl mid) = .res true (some rid)) (hrid : rid ≠ "")
    (hrem : env.removeReaction (jsTpl mid) 0 = .res true)
    (hfree : mget sys.typing (jsTpl mid) = none) :
    (addTypingIndicator env mid sys).2 = true
    ∧ mget ((addTypingIndicator env mid sys).1).typing (jsTpl mid) = some rid
    ∧ mget (removeTypingIndicator env mid (addTypingIndicator env mid sys).1).typing
        (jsTpl mid) = none
    ∧ removeCallCount (removeTypingIndicator env mid (addTypingIndicator env mid sys).1)
      = removeCallCount ((addTypingIndicator env mid sys).1) + 1
    ∧ removeTypingIndicator env mid
        (removeTypingIndicator env mid (addTypingIndicator env mid sys).1)
      = removeTypingIndicator env mid (addTypingIndicator env mid sys).1
    ∧ (∀ sys3 : Sys, mget sys3.typing (jsTpl mid) = none →
        removeTypingIndicator env mid sys3 = sys3) := by
  have hkey : jsTruthyS (some rid) = true := by simp [jsTruthyS, hrid]
  have hnoop : ∀ sys3 : Sys, mget sys3.typing (jsTpl mid) = none →
      removeTypingIndicator env mid sys3 = sys3 := by
    intro sys3 h3
    unfold removeTypingIndicator
    dsimp only
    rw [h3]
  have hadd1 : addTypingIndicator env mid sys =
      ({ emit (.reactionAdd (jsTpl mid)) sys with
          typing := mset sys.typing (jsTpl mid) rid }, true) := by
    unfold addTypingIndicator
    dsimp only
    rw [hadd]
    simp [hkey, emit]
  have htyping1 : mget ((addTypingIndicator env mid sys).1).typing (jsTpl mid)
      = some rid := by
    rw [hadd1]
    exact mget_mset_self _ _ _
  have hremove1 : removeTypingIndicator env mid (addTypingIndicator env mid sys).1 =
      { emit (.reactionRemove (jsTpl mid) rid) (addTypingIndicator env mid sys).1 with
        typing := mdel (mset sys.typing (jsTpl mid) rid) (jsTpl mid) } := by
    unfold removeTypingIndicator
    dsimp only
    rw [htyping1, hrem]
    rw [hadd1]
    rfl
  have htyping2 : mget (removeTypingIndicator env mid
      (addTypingIndicator env mid sys).1).typing (jsTpl mid) = none := by
    rw [hremove1]
    exact mget_mdel_mset_of_none _ _ _ hfree
  refine ⟨by rw [hadd1], htyping1, htyping2, ?_, hnoop _ htyping2, hnoop⟩
  rw [hremove1]
  simp [removeCallCount, emit, isReactionRemoveEff]

/-- Witness for the indicator lifecycle at a concrete message id. -/
theorem typing_complete_idempotent_witness :
    (addTypingIndicator
        { addReaction := fun _ => .res true (some "rx") } (some "om_9") {}).2 = true
    ∧ mget ((addTypingIndicator
        { addReaction := fun _ => .res true (some "rx") } (some "om_9") {}).1).typing
        (jsTpl (some "om_9")) = some "rx"
    ∧ mget (removeTypingIndicator { addReaction := fun _ => .res true (some "rx") }
          (some "om_9")
          (addTypingIndicator { addReaction := fun _ => .res true (some "rx") }
            (some "om_9") {}).1).typing (jsTpl (some "om_9")) = none :=
  have h := typing_complete_idempotent
    { addReaction := fun _ => .res true (some "rx") } (some "om_9") {} "rx"
    rfl (by decide) rfl rfl
  ⟨h.1, h.2.1, h.2.2.1⟩

end Feishu

namespace Feishu

/-! ## Frame lemmas: which state components each operation can touch -/

theorem handlePermissionError_frame (env : Env) (p : PermErr) (sys : Sys) :
    (handlePermissionError env p sys).histories = sys.histories
    ∧ (handlePermissionError env p sys).lazyLoaded = sys.lazyLoaded
    ∧ fetchCount (handlePermissionError env p sys) = fetchCount sys := by
  unfold handlePermissionError
  dsimp only
  split
  · exact ⟨rfl, rfl, rfl⟩
  · split
    · split
      · exact ⟨rfl, rfl, by simp [fetchCount, emit, isHistoryFetchEff]⟩
      · exact ⟨rfl, rfl, rfl⟩
    · exact ⟨rfl, rfl, rfl⟩

theorem resolveUserNameRemote_frame (env : Env) (uid : String)
    (cached : Option NameEntry) (sys : Sys) :
    (resolveUserNameRemote env uid cached sys).1.histories = sys.histories
    ∧ (resolveUserNameRemote env uid cached sys).1.lazyLoaded = sys.lazyLoaded
    ∧ fetchCount (resolveUserNameRemote env uid cached sys).1 = fetchCount sys := by
  have hemit : fetchCount (emit (.remoteUserLookup uid) sys) = fetchCount sys := by
    simp [fetchCount, emit, isHistoryFetchEff]
  unfold resolveUserNameRemote
  dsimp only
  split
  · split
    · exact ⟨rfl, rfl, hemit⟩
    · exact ⟨rfl, rfl, hemit⟩
  · split
    · obtain ⟨h1, h2, h3⟩ := handlePermissionError_frame env
        { code := 99991672, message := jsStrOr _ "" }
        (emit (.remoteUserLookup uid) sys)
      exact ⟨h1, h2, h3.trans hemit⟩
    · exact ⟨rfl, rfl, hemit⟩
  · split
    · split
      · rename_i p hp
        obtain ⟨h1, h2, h3⟩ := handlePermissionError_frame env p
          (emit (.remoteUserLookup uid) sys)
        exact ⟨h1, h2, h3.trans hemit⟩
      · exact ⟨rfl, rfl, hemit⟩
    · split
      · rename_i p hp
        obtain ⟨h1, h2, h3⟩ := handlePermissionError_frame env p
          (emit (.remoteUserLookup uid) sys)
        exact ⟨h1, h2, h3.trans hemit⟩
      · exact ⟨rfl, rfl, hemit⟩

theorem resolveUserName_frame (env : Env) (u : Option String) (sys : Sys) :
    (resolveUserName env u sys).1.histories = sys.histories
    ∧ (resolveUserName env u sys).1.lazyLoaded = sys.lazyLoaded
    ∧ fetchCount (resolveUserName env u sys).1 = fetchCount sys := by
  unfold resolveUserName
  dsimp only
  split
  · exact ⟨rfl, rfl, rfl⟩
  · split
    · exact ⟨rfl, rfl, rfl⟩
    · split
      · exact ⟨rfl, rfl, rfl⟩
      · split
        · split
          · exact ⟨rfl, rfl, rfl⟩
          · exact resolveUserNameRemote_frame env _ _ sys
        · exact resolveUserNameRemote_frame env _ _ sys

end Feishu

namespace Feishu

/-- Recording an entry under one history key never changes the buffer
stored under a different key. -/
theorem recordHistoryEntry_mget_ne (cfg : Config) (k1 k2 : String)
    (e : HistoryEntry) (hs : List (String × List HistoryEntry)) (hne : k1 ≠ k2) :
    mget (recordHistoryEntry cfg k1 e hs) k2 = mget hs k2 := by
  unfold recordHistoryEntry
  dsimp only
  have hset : ∀ v : List HistoryEntry, ∀ hs' : List (String × List HistoryEntry),
      mget (mset hs' k1 v) k2 = mget hs' k2 := fun v hs' => mget_mset_ne hs' k1 k2 v hne
  by_cases h1 : (mget hs k1).isSome
  · rw [if_pos h1]
    split
    · rfl
    · split <;> exact hset _ _
  · rw [if_neg h1]
    split
    · exact hset _ _
    · split <;> exact (hset _ _).trans (hset _ _)

/-- `getInMemoryContext` reads only the bucket of its key. -/
theorem getInMemoryContext_ext (cfg : Config) (k : String) (mid : Option String)
    (hs1 hs2 : List (String × List HistoryEntry)) (h : mget hs1 k = mget hs2 k) :
    getInMemoryContext cfg k mid hs1 = getInMemoryContext cfg k mid hs2 := by
  unfold getInMemoryContext
  rw [h]

/-- A thread history key is never the parent conversation key. -/
theorem getHistoryKey_thread_ne (chatId t : String) (ht : t ≠ "") :
    getHistoryKey chatId (some t) ≠ chatId := by
  unfold getHistoryKey
  rw [if_pos (by simp [jsTruthyS, ht])]
  intro hcontra
  have hlen := congrArg String.length hcontra
  rw [String.length_append, String.length_append] at hlen
  have ht' : (some t : Option String).getD "" = t := rfl
  rw [ht'] at hlen
  have : t.length = 0 := by
    have h1 : (":" : String).length = 1 := rfl
    omega
  have : t = "" := by
    cases t with
    | mk data =>
      cases data with
      | nil => rfl
      | cons c cs => simp [String.length] at this
  exact ht this

/-- `logMessage` with a thread id writes history only under the thread
key (direct messages without a thread write no history at all, group
messages only under the chat key). -/
theorem logMessage_thread_frame (env : Env) (chatType chatId userId openId :
    Option String) (text : String) (messageId timestamp : Option String)
    (mentions : Option (List Mention)) (t : String) (ht : t ≠ "") (sys : Sys)
    (k : String) (hk : k ≠ getHistoryKey (jsTpl chatId) (some t)) :
    mget (logMessage env chatType chatId userId openId text messageId timestamp
      mentions (some t) sys).histories k = mget sys.histories k := by
  have htr : jsTruthyS (some t) = true := by simp [jsTruthyS, ht]
  unfold logMessage
  dsimp only
  simp only [htr, if_true]
  rw [recordHistoryEntry_mget_ne _ _ _ _ _ (Ne.symm hk)]
  exact congrArg (fun h => mget h k) (resolveUserName_frame env userId sys).1

end Feishu

namespace Feishu

/-- C6: thread context isolation. The thread history key differs from the
parent conversation key; recording an entry under either key never changes
a context read on the other; and `logMessage` for a message carrying a
thread id records history only into the thread bucket. -/
theorem thread_context_isolation (cfg : Config) (chatId t : String) (ht : t ≠ "")
    (e : HistoryEntry) (hs : List (String × List HistoryEntry)) (mid : Option String)
    (env : Env) (chatType userId openId : Option String) (text : String)
    (messageId timestamp : Option String) (mentions : Option (List Mention))
    (sys : Sys) :
    getHistoryKey chatId (some t) ≠ chatId
    ∧ getInMemoryContext cfg chatId mid
        (recordHistoryEntry cfg (getHistoryKey chatId (some t)) e hs)
      = getInMemoryContext cfg chatId mid hs
    ∧ getInMemoryContext cfg (getHistoryKey chatId (some t)) mid
        (recordHistoryEntry cfg chatId e hs)
      = getInMemoryContext cfg (getHistoryKey chatId (some t)) mid hs
    ∧ (∀ k, k ≠ getHistoryKey chatId (some t) →
        mget (logMessage env chatType (some chatId) userId openId text messageId
          timestamp mentions (some t) sys).histories k = mget sys.histories k) := by
  have hne := getHistoryKey_thread_ne chatId t ht
  refine ⟨hne, ?_, ?_, ?_⟩
  · exact getInMemoryContext_ext cfg chatId mid _ hs
      (recordHistoryEntry_mget_ne cfg _ chatId e hs hne)
  · exact getInMemoryContext_ext cfg _ mid _ hs
      (recordHistoryEntry_mget_ne cfg chatId _ e hs (Ne.symm hne))
  · intro k hk
    exact logMessage_thread_frame env chatType (some chatId) userId openId text
      messageId timestamp mentions t ht sys k hk

/-- Witness for thread isolation at a concrete chat, thread and entry. -/
theorem thread_context_isolation_witness :
    getHistoryKey "oc_c" (some "td") ≠ "oc_c"
    ∧ getInMemoryContext {} "oc_c" (some "cur")
        (recordHistoryEntry {} (getHistoryKey "oc_c" (some "td"))
          { message_id := some "m1" } [])
      = getInMemoryContext {} "oc_c" (some "cur") []
    ∧ getInMemoryContext {} (getHistoryKey "oc_c" (some "td")) (some "cur")
        (recordHistoryEntry {} "oc_c" { message_id := some "m1" } [])
      = getInMemoryContext {} (getHistoryKey "oc_c" (some "td")) (some "cur") []
    ∧ mget (logMessage {} (some "group") (some "oc_c") (some "u1") none "hi"
        (some "m1") none none (some "td") {}).histories "oc_c"
      = mget (Sys.histories {}) "oc_c" :=
  have h := thread_context_isolation {} "oc_c" "td" (by decide)
    { message_id := some "m1" } [] (some "cur") {} (some "group") (some "u1")
    none "hi" (some "m1") none none {}
  ⟨h.1, h.2.1, h.2.2.1, h.2.2.2 "oc_c" (by decide)⟩

end Feishu

namespace Feishu

/-- Concrete environment for the self-suppression witness. -/
def envC10 : Env := { botOpenId := "ou_bot" }

/-- Concrete event for the self-suppression witness: the bot's own open id
as the sender. -/
def dataC10 : EventData where
  message :=
    { chat_id := some "oc_1", message_id := some "om_1",
      chat_type := some "p2p", message_type := some "text",
      content := some { text := some "hi" } }
  sender := { sender_id := some { open_id := some "ou_bot" } }

/-- C10: self-message suppression. For every inbound event whose sender
identifier (the coalescing `open_id || app_id || user_id`) is non-empty
and equals any of the bot identifiers (`botAppId`, `botOpenId`, configured
`app_id`, configured `bot_open_id`), `handleMessage` returns immediately
with the state unchanged: nothing is logged, no history entry is recorded,
no typing indicator is added and nothing is dispatched. -/
theorem self_message_suppressed (env : Env) (data : EventData) (sys : Sys)
    (hne : eventSenderId data ≠ "")
    (hmatch : eventSenderId data = env.botAppId
      ∨ eventSenderId data = env.botOpenId
      ∨ eventSenderId data = jsStrEmpty sys.cfg.app_id
      ∨ eventSenderId data = jsStrEmpty sys.cfg.bot_open_id) :
    handleMessage env data sys = (sys, .ok .selfSkip) := by
  have hself : isSelfSender env sys.cfg (eventSenderId data) = true := by
    unfold isSelfSender
    rcases hmatch with h | h | h | h <;> simp [hne, ← h]
  unfold handleMessage
  dsimp only
  rw [if_pos hself]

/-- Witness: an event whose sender open id equals the bot open id is
suppressed without any state change. -/
theorem self_message_suppressed_witness :
    handleMessage envC10 dataC10 {} = ({}, .ok .selfSkip) :=
  self_message_suppressed envC10 dataC10 {} (by decide) (Or.inr (Or.inl (by decide)))

end Feishu

namespace Feishu

/-- The default (unbound) owner record of `DEFAULT_CONFIG`. -/
def defaultOwner : Owner :=
  { bound := false, user_id := some "", open_id := some "", name := some "" }

/-- A configuration whose owner is still unbound. -/
def cfgUnbound : Config := { owner := some defaultOwner }

/-- Initial state for the owner-binding runs: in-memory and durable config
agree and the owner is unbound. -/
def sysOwnerStart : Sys := { cfg := cfgUnbound, fileCfg := cfgUnbound }

/-- Environment in which the config file write fails (fs.writeFileSync
throws inside saveConfig). -/
def envPersistFail : Env := { persistOk := false }

/-- C1: evaluation at the failing input. When persisting the updated
configuration fails, `saveConfig` throws; the exception propagates out of
`bindOwner` before the rollback line runs, so the in-memory owner remains
the newly bound sender while the durable file keeps the previous owner —
the in-memory assignment is NOT rolled back, contradicting the claim. -/
theorem bindOwner_no_rollback_on_persist_failure :
    (bindOwner envPersistFail (some "u_1") (some "ou_1") sysOwnerStart).2 = .error ()
    ∧ (bindOwner envPersistFail (some "u_1") (some "ou_1") sysOwnerStart).1.cfg.owner
      = some { bound := true, user_id := some "u_1", open_id := some "ou_1",
               name := some "u_1" }
    ∧ (bindOwner envPersistFail (some "u_1") (some "ou_1") sysOwnerStart).1.fileCfg.owner
      = some defaultOwner :=
  ⟨rfl, rfl, rfl⟩

/-- Environment in which persistence succeeds. -/
def envPersistOk : Env := { persistOk := true }

/-- First direct message of an unbound deployment: a plain text DM from a
fresh sender. -/
def dataFirstDm : EventData where
  message :=
    { chat_id := some "oc_chat", message_id := some "om_1",
      chat_type := some "p2p", message_type := some "text",
      content := some { text := some "hello" } }
  sender := { sender_id := some { open_id := some "ou_alice",
                                  user_id := some "u_alice" } }

/-- C2: evaluation at the failing input. On the first direct message of an
unbound deployment with a successful file write, `saveConfig` returns
`undefined`, the `!saveConfig(config)` check in `bindOwner` therefore
fires, the fresh binding is rolled back in memory and `bindOwner` returns
null — so `handleMessage` returns before logging or forwarding: the event
is never dispatched and the in-memory owner ends up unbound (while the
durable file holds the new owner), contradicting the claim. -/
theorem first_dm_not_bound_not_forwarded :
    (handleMessage envPersistOk dataFirstDm sysOwnerStart).2 = .ok .ownerBindFailed
    ∧ dispatchCount (handleMessage envPersistOk dataFirstDm sysOwnerStart).1 = 0
    ∧ ((handleMessage envPersistOk dataFirstDm sysOwnerStart).1.cfg.owner.map (·.bound))
      = some false
    ∧ ((handleMessage envPersistOk dataFirstDm sysOwnerStart).1.fileCfg.owner.map (·.bound))
      = some true :=
  ⟨rfl, rfl, rfl, rfl⟩

end Feishu

namespace Feishu

/-- Environment with a known bot open id (used for group-policy runs). -/
def envBot : Env := { botOpenId := "ou_bot" }

/-- A configuration with a bound owner and `groupPolicy` disabled. -/
def cfgOwnerDisabled : Config :=
  { owner := some { bound := true, user_id := some "u_owner",
                    open_id := some "ou_owner" },
    groupPolicy := some "disabled" }

/-- State for the disabled-policy run. -/
def sysDisabled : Sys := { cfg := cfgOwnerDisabled, fileCfg := cfgOwnerDisabled }

/-- A group message from the bound owner that mentions the bot. -/
def dataOwnerGroupMsg : EventData where
  message :=
    { chat_id := some "oc_g", message_id := some "om_2",
      chat_type := some "group", message_type := some "text",
      content := some { text := some "hi" },
      mentions := some [{ key := some "@_user_1", open_id := some "ou_bot" }] }
  sender := { sender_id := some { open_id := some "ou_owner",
                                  user_id := some "u_owner" } }

/-- C3 (counterexample): the claim fails as stated. Under
`groupPolicy = 'disabled'` a group message from the bound owner — whose
sender matches the owner's ids, witnessed by `isOwner` — is denied by the
group evaluation: `handleMessage` replies with the disabled-policy
rejection and returns without forwarding. -/
theorem owner_denied_under_disabled_policy :
    isOwner cfgOwnerDisabled (some "u_owner") (some "ou_owner") = true
    ∧ (handleMessage envBot dataOwnerGroupMsg sysDisabled).2 = .ok .groupDisabledDenied
    ∧ (handleMessage envBot dataOwnerGroupMsg sysDisabled).1.trace
      = [.replyMsg "om_2" groupDisabledText] :=
  ⟨rfl, rfl, rfl⟩

/-- In the group branch after the policy gates, every completed run ends
in a dispatch or a media failure — never a denial. -/
theorem handleGroupAllowed_ok_outcomes (env : Env) (f : MsgFields) (s : Bool)
    (sys : Sys) (o : HMOutcome)
    (h : (handleGroupAllowed env f s sys).2 = .ok o) :
    o = .sentGroup ∨ o = .groupMediaFailed := by
  unfold handleGroupAllowed at h
  dsimp only at h
  repeat' split at h
  all_goals simp_all

/-- C3 (amended): owner bypass. A sender matching the bound owner's ids is
never denied by the DM evaluation, under every `dmPolicy` and allowlist;
in the group evaluation the owner is never denied by the per-group sender
allowlist, and is never denied at all provided `groupPolicy` is not
`'disabled'` and the group is allowed or the owner mentioned the bot
(under `'disabled'`, and for an unmentioned owner in a group not in the
allowlist, the code denies even the owner). -/
theorem owner_bypass_amended (env : Env) (f : MsgFields) (sys : Sys)
    (howner : isOwner sys.cfg f.senderUserId f.senderOpenId = true) :
    isDmAllowed sys.cfg f.senderUserId f.senderOpenId = true
    ∧ (jsStrOr sys.cfg.groupPolicy "allowlist" ≠ "disabled" →
       (isGroupAllowed sys.cfg f.chatId = true ∨
         isBotMentioned f.mentions (some env.botOpenId) = true) →
       ∀ o, (handleGroup env f sys).2 = .ok o →
         o ≠ .groupDisabledDenied ∧ o ≠ .groupNotAllowedDenied
           ∧ o ≠ .groupSenderDenied) := by
  constructor
  · simp [isDmAllowed, howner]
  · intro hpol hallow o h
    rcases hallow with ha | hm
    all_goals
      unfold handleGroup at h
      dsimp only at h
      repeat' split at h
    all_goals first
      | (exfalso; simp_all; done)
      | (simp at h; subst h; exact ⟨by decide, by decide, by decide⟩)
      | (rcases handleGroupAllowed_ok_outcomes _ _ _ _ _ h with h1 | h1 <;>
          subst h1 <;> exact ⟨by decide, by decide, by decide⟩)

/-- A configuration with a bound owner and a smart group. -/
def cfgSmart : Config :=
  { owner := some { bound := true, user_id := some "u_owner",
                    open_id := some "ou_owner" },
    groupPolicy := some "allowlist",
    groups := some [("oc_g", { mode := some "smart" })] }

/-- State for the smart-group run. -/
def sysSmart : Sys := { cfg := cfgSmart, fileCfg := cfgSmart }

/-- Message fields of an owner text message in the smart group. -/
def fSmart : MsgFields :=
  { senderUserId := some "u_owner", senderOpenId := some "ou_owner",
    chatId := some "oc_g", messageId := some "om_3",
    chatType := some "group", text := "hi", logText := "hi",
    endpoint := "oc_g|type:group|msg:om_3" }

/-- Witness for the amended owner bypass: in an allowed smart group the
owner's unmentioned message completes as a dispatch, not a denial. -/
theorem owner_bypass_amended_witness :
    isDmAllowed sysSmart.cfg fSmart.senderUserId fSmart.senderOpenId = true
    ∧ (HMOutcome.sentGroup ≠ HMOutcome.groupDisabledDenied
      ∧ HMOutcome.sentGroup ≠ HMOutcome.groupNotAllowedDenied
      ∧ HMOutcome.sentGroup ≠ HMOutcome.groupSenderDenied) :=
  have h := owner_bypass_amended envBot fSmart sysSmart (by decide)
  ⟨h.1, h.2 (by decide) (Or.inl (by decide)) .sentGroup rfl⟩

end Feishu

namespace Feishu

/-- Environment whose remote history fetch fails. -/
def envFetchFail : Env := { listMessages := fun _ _ => .failure }

/-- C5 (counterexample): the claim fails as stated. For a never-before-seen
key whose remote fetch fails, the key is not marked as backfilled, so two
consecutive `getContextWithFallback` calls perform TWO remote history
fetches — not exactly one. -/
theorem backfill_refetches_after_failure :
    fetchCount (getContextWithFallback envFetchFail (some "cc") (some "m") "chat"
      "cc" none
      (getContextWithFallback envFetchFail (some "cc") (some "m") "chat" "cc" none
        {}).1).1 = 2
    ∧ (2 : Nat) ≠ 1 :=
  ⟨rfl, by decide⟩

/-- Recording one lazily fetched message touches neither the backfill mark
set nor the count of history fetches. -/
theorem lazyRecordOne_frame (env : Env) (hk : String) (sys : Sys) (m : RemoteMsg) :
    (lazyRecordOne env hk sys m).lazyLoaded = sys.lazyLoaded
    ∧ fetchCount (lazyRecordOne env hk sys m) = fetchCount sys := by
  unfold lazyRecordOne
  dsimp only
  exact ⟨(resolveUserName_frame env m.sender sys).2.1,
    (resolveUserName_frame env m.sender sys).2.2⟩

/-- The backfill recording loop preserves the mark set and fetch count. -/
theorem foldl_lazyRecordOne_frame (env : Env) (hk : String) (l : List RemoteMsg) :
    ∀ sys : Sys, (l.foldl (lazyRecordOne env hk) sys).lazyLoaded = sys.lazyLoaded
      ∧ fetchCount (l.foldl (lazyRecordOne env hk) sys) = fetchCount sys := by
  induction l with
  | nil => exact fun sys => ⟨rfl, rfl⟩
  | cons x xs ih =>
    intro sys
    have h1 := lazyRecordOne_frame env hk sys x
    have h2 := ih (lazyRecordOne env hk sys x)
    exact ⟨h2.1.trans h1.1, h2.2.trans h1.2⟩

/-- C5 (amended): lazy backfill runs at most once per container key per
process lifetime when the remote fetch succeeds. The first call for a
never-before-seen key performs exactly one remote fetch and marks the key;
every call for a marked key serves purely from memory with no fetch and no
state change (regardless of buffer eviction); hence two consecutive calls
perform exactly one fetch. A failed fetch, however, leaves the key
unmarked and a later call fetches again. -/
theorem backfill_once_on_success (env : Env) (cid mid : Option String)
    (ctype hk : String) (lim : Option Nat) (sys : Sys) (msgs : List RemoteMsg)
    (hfetch : ∀ n, env.listMessages (jsTpl cid) n = .success msgs)
    (hfresh : sys.lazyLoaded.contains hk = false) :
    fetchCount (getContextWithFallback env cid mid ctype hk lim sys).1
      = fetchCount sys + 1
    ∧ (getContextWithFallback env cid mid ctype hk lim sys).1.lazyLoaded.contains hk
      = true
    ∧ (∀ sys2 : Sys, sys2.lazyLoaded.contains hk = true →
        getContextWithFallback env cid mid ctype hk lim sys2
        = (sys2, getInMemoryContext sys2.cfg hk mid sys2.histories))
    ∧ fetchCount (getContextWithFallback env cid mid ctype hk lim
        (getContextWithFallback env cid mid ctype hk lim sys).1).1
      = fetchCount sys + 1 := by
  have hmem : ∀ sys2 : Sys, sys2.lazyLoaded.contains hk = true →
      getContextWithFallback env cid mid ctype hk lim sys2
      = (sys2, getInMemoryContext sys2.cfg hk mid sys2.histories) := by
    intro sys2 h2
    unfold getContextWithFallback
    rw [if_pos h2]
  have hrun : fetchCount (getContextWithFallback env cid mid ctype hk lim sys).1
        = fetchCount sys + 1
      ∧ (getContextWithFallback env cid mid ctype hk lim sys).1.lazyLoaded.contains hk
        = true := by
    unfold getContextWithFallback
    rw [if_neg (by intro hcontra; rw [hfresh] at hcontra; cases hcontra)]
    dsimp only
    rw [hfetch _]
    dsimp only
    constructor
    · split
      · rename_i hlen
        have hf := foldl_lazyRecordOne_frame env hk (sortByCreateTime msgs)
        rw [(hf _).2]
        simp [fetchCount, emit, isHistoryFetchEff]
      · simp [fetchCount, emit, isHistoryFetchEff]
    · split
      · rename_i hlen
        have hf := foldl_lazyRecordOne_frame env hk (sortByCreateTime msgs)
        rw [(hf _).1]
        simp
      · simp
  refine ⟨hrun.1, hrun.2, hmem, ?_⟩
  rw [hmem _ hrun.2]
  exact hrun.1

/-- Witness for the amended backfill property: a concrete fresh key whose
fetch succeeds with no messages. -/
theorem backfill_once_on_success_witness :
    fetchCount (getContextWithFallback { listMessages := fun _ _ => .success [] }
      (some "cw") (some "m") "chat" "cw" none {}).1 = fetchCount {} + 1
    ∧ (getContextWithFallback { listMessages := fun _ _ => .success [] }
        (some "cw") (some "m") "chat" "cw" none {}).1.lazyLoaded.contains "cw" = true
    ∧ fetchCount (getContextWithFallback { listMessages := fun _ _ => .success [] }
        (some "cw") (some "m") "chat" "cw" none
        (getContextWithFallback { listMessages := fun _ _ => .success [] }
          (some "cw") (some "m") "chat" "cw" none {}).1).1 = fetchCount {} + 1 :=
  have h := backfill_once_on_success { listMessages := fun _ _ => .success [] }
    (some "cw") (some "m") "chat" "cw" none {} [] (fun _ => rfl) (by decide)
  ⟨h.1, h.2.1, h.2.2.2⟩

end Feishu
